import Mathlib

/-!
Verification of `MarkerLocator.py` (FroboMind indoor tracker).

Shallow embedding of the marker-tracking pipeline: pixel images are modelled
with real-valued intensities, the OpenCV primitives used by the script
(`Filter2D`, `MinMaxLoc`, `Get2D`, `GetSubRect`, `ConvertScale`, `CvtColor`,
`Resize`) are modelled as pure functions following the spec's description of
these external capabilities, and the Python classes become Lean structures
with explicit state passing.
-/

open Real

/-- Python `int()` applied to a float: truncation toward zero. -/
noncomputable def pyInt (x : ℝ) : ℤ :=
  if 0 ≤ x then ⌊x⌋ else ⌈x⌉

/-- C `atan2` semantics, as used by Python's `math.atan2`. -/
noncomputable def atan2 (y x : ℝ) : ℝ :=
  if 0 < x then Real.arctan (y / x)
  else if x < 0 then
    (if 0 ≤ y then Real.arctan (y / x) + Real.pi else Real.arctan (y / x) - Real.pi)
  else
    (if 0 < y then Real.pi / 2 else if y < 0 then -(Real.pi / 2) else 0)

/-- First loop of `MarkerTracker.limitAngleToRange`:
`while angle < math.pi: angle += 2*math.pi`. -/
noncomputable def addTwoPiLoop (a : ℝ) : ℝ :=
  if a < Real.pi then addTwoPiLoop (a + 2 * Real.pi) else a
termination_by Nat.ceil ((Real.pi - a) / (2 * Real.pi))
decreasing_by
  rename_i h
  have h2pi : (0 : ℝ) < 2 * Real.pi := by positivity
  have ht : 0 < (Real.pi - a) / (2 * Real.pi) := div_pos (by linarith) h2pi
  have heq : (Real.pi - (a + 2 * Real.pi)) / (2 * Real.pi)
      = (Real.pi - a) / (2 * Real.pi) - 1 := by
    rw [show Real.pi - (a + 2 * Real.pi) = (Real.pi - a) - 2 * Real.pi by ring,
      sub_div, div_self (ne_of_gt h2pi)]
  have hpos : 0 < Nat.ceil ((Real.pi - a) / (2 * Real.pi)) := Nat.ceil_pos.mpr ht
  have hle : Nat.ceil ((Real.pi - (a + 2 * Real.pi)) / (2 * Real.pi))
      ≤ Nat.ceil ((Real.pi - a) / (2 * Real.pi)) - 1 := by
    rw [heq]
    apply Nat.ceil_le.mpr
    have hcast : ((Nat.ceil ((Real.pi - a) / (2 * Real.pi)) - 1 : ℕ) : ℝ)
        = (Nat.ceil ((Real.pi - a) / (2 * Real.pi)) : ℝ) - 1 := by
      have : (1 : ℕ) ≤ Nat.ceil ((Real.pi - a) / (2 * Real.pi)) := hpos
      push_cast [Nat.cast_sub this]
      ring
    rw [hcast]
    have := Nat.le_ceil ((Real.pi - a) / (2 * Real.pi))
    linarith
  omega

/-- Second loop of `MarkerTracker.limitAngleToRange`:
`while angle > math.pi: angle -= 2*math.pi`. -/
noncomputable def subTwoPiLoop (a : ℝ) : ℝ :=
  if Real.pi < a then subTwoPiLoop (a - 2 * Real.pi) else a
termination_by Nat.ceil ((a - Real.pi) / (2 * Real.pi))
decreasing_by
  rename_i h
  have h2pi : (0 : ℝ) < 2 * Real.pi := by positivity
  have ht : 0 < (a - Real.pi) / (2 * Real.pi) := div_pos (by linarith) h2pi
  have heq : (a - 2 * Real.pi - Real.pi) / (2 * Real.pi)
      = (a - Real.pi) / (2 * Real.pi) - 1 := by
    rw [show a - 2 * Real.pi - Real.pi = (a - Real.pi) - 2 * Real.pi by ring,
      sub_div, div_self (ne_of_gt h2pi)]
  have hpos : 0 < Nat.ceil ((a - Real.pi) / (2 * Real.pi)) := Nat.ceil_pos.mpr ht
  have hle : Nat.ceil ((a - 2 * Real.pi - Real.pi) / (2 * Real.pi))
      ≤ Nat.ceil ((a - Real.pi) / (2 * Real.pi)) - 1 := by
    rw [heq]
    apply Nat.ceil_le.mpr
    have hcast : ((Nat.ceil ((a - Real.pi) / (2 * Real.pi)) - 1 : ℕ) : ℝ)
        = (Nat.ceil ((a - Real.pi) / (2 * Real.pi)) : ℝ) - 1 := by
      have : (1 : ℕ) ≤ Nat.ceil ((a - Real.pi) / (2 * Real.pi)) := hpos
      push_cast [Nat.cast_sub this]
      ring
    rw [hcast]
    have := Nat.le_ceil ((a - Real.pi) / (2 * Real.pi))
    linarith
  omega

/-- `MarkerTracker.limitAngleToRange`: the two normalization loops in sequence. -/
noncomputable def limitAngleToRange (a : ℝ) : ℝ :=
  subTwoPiLoop (addTwoPiLoop a)

theorem addTwoPiLoop_ge (a : ℝ) : Real.pi ≤ addTwoPiLoop a := by
  induction a using addTwoPiLoop.induct with
  | case1 a h ih => rw [addTwoPiLoop, if_pos h]; exact ih
  | case2 a h => rw [addTwoPiLoop, if_neg h]; linarith [not_lt.mp h]

theorem addTwoPiLoop_mod (a : ℝ) : ∃ k : ℤ, addTwoPiLoop a = a + 2 * Real.pi * k := by
  induction a using addTwoPiLoop.induct with
  | case1 a h ih =>
    obtain ⟨k, hk⟩ := ih
    refine ⟨k + 1, ?_⟩
    rw [addTwoPiLoop, if_pos h, hk]
    push_cast
    ring
  | case2 a h =>
    refine ⟨0, ?_⟩
    rw [addTwoPiLoop, if_neg h]
    push_cast
    ring

theorem subTwoPiLoop_le (a : ℝ) : subTwoPiLoop a ≤ Real.pi := by
  induction a using subTwoPiLoop.induct with
  | case1 a h ih => rw [subTwoPiLoop, if_pos h]; exact ih
  | case2 a h => rw [subTwoPiLoop, if_neg h]; exact not_lt.mp h

theorem subTwoPiLoop_gt (a : ℝ) (h : -Real.pi < a) : -Real.pi < subTwoPiLoop a := by
  induction a using subTwoPiLoop.induct with
  | case1 a h1 ih =>
    rw [subTwoPiLoop, if_pos h1]
    exact ih (by linarith)
  | case2 a h1 => rw [subTwoPiLoop, if_neg h1]; exact h

theorem subTwoPiLoop_mod (a : ℝ) : ∃ k : ℤ, subTwoPiLoop a = a + 2 * Real.pi * k := by
  induction a using subTwoPiLoop.induct with
  | case1 a h ih =>
    obtain ⟨k, hk⟩ := ih
    refine ⟨k - 1, ?_⟩
    rw [subTwoPiLoop, if_pos h, hk]
    push_cast
    ring
  | case2 a h =>
    refine ⟨0, ?_⟩
    rw [subTwoPiLoop, if_neg h]
    push_cast
    ring

/-- C6: for every real input angle, `limitAngleToRange` returns a value in
`(-π, π]` that differs from the input by an integer multiple of `2π`. -/
theorem limitAngleToRange_spec (a : ℝ) :
    limitAngleToRange a ∈ Set.Ioc (-Real.pi) Real.pi ∧
    ∃ k : ℤ, limitAngleToRange a = a + 2 * Real.pi * k := by
  have hge := addTwoPiLoop_ge a
  have hgt : -Real.pi < addTwoPiLoop a := by
    have := Real.pi_pos
    linarith
  constructor
  · exact ⟨subTwoPiLoop_gt _ hgt, subTwoPiLoop_le _⟩
  · obtain ⟨k1, hk1⟩ := addTwoPiLoop_mod a
    obtain ⟨k2, hk2⟩ := subTwoPiLoop_mod (addTwoPiLoop a)
    refine ⟨k1 + k2, ?_⟩
    rw [limitAngleToRange, hk2, hk1]
    push_cast
    ring

/-- An angle already in `(-π, π]` is returned unchanged. -/
theorem limitAngleToRange_eq_self (a : ℝ) (h1 : -Real.pi < a) (h2 : a ≤ Real.pi) :
    limitAngleToRange a = a := by
  rcases eq_or_lt_of_le h2 with heq | hlt
  · have ha : addTwoPiLoop a = a := by
      rw [addTwoPiLoop, if_neg (by rw [heq]; exact lt_irrefl _)]
    rw [limitAngleToRange, ha, subTwoPiLoop, if_neg (by rw [heq]; exact lt_irrefl _)]
  · have hpi := Real.pi_pos
    have ha : addTwoPiLoop a = a + 2 * Real.pi := by
      rw [addTwoPiLoop, if_pos hlt, addTwoPiLoop, if_neg (by linarith)]
    rw [limitAngleToRange, ha, subTwoPiLoop, if_pos (by linarith), subTwoPiLoop]
    rw [if_neg (by linarith)]
    ring

theorem limitAngleToRange_zero : limitAngleToRange 0 = 0 :=
  limitAngleToRange_eq_self 0 (by linarith [Real.pi_pos]) (le_of_lt Real.pi_pos)

/-- Fuel-bounded version of the first normalization loop (`none` = fuel ran out
before the loop condition became false). -/
noncomputable def addTwoPiFuel : ℕ → ℝ → Option ℝ
  | 0, a => if a < Real.pi then none else some a
  | n + 1, a => if a < Real.pi then addTwoPiFuel n (a + 2 * Real.pi) else some a

/-- Fuel-bounded version of the second normalization loop. -/
noncomputable def subTwoPiFuel : ℕ → ℝ → Option ℝ
  | 0, a => if Real.pi < a then none else some a
  | n + 1, a => if Real.pi < a then subTwoPiFuel n (a - 2 * Real.pi) else some a

/-- Fuel-bounded version of `limitAngleToRange`: runs both loops, failing if
either loop needs more iterations than the provided fuel. -/
noncomputable def limitAngleToRangeFuel (n m : ℕ) (a : ℝ) : Option ℝ :=
  (addTwoPiFuel n a).bind (subTwoPiFuel m)

theorem addTwoPiFuel_complete (a : ℝ) : ∃ n, addTwoPiFuel n a = some (addTwoPiLoop a) := by
  induction a using addTwoPiLoop.induct with
  | case1 a h ih =>
    obtain ⟨n, hn⟩ := ih
    refine ⟨n + 1, ?_⟩
    rw [addTwoPiFuel, if_pos h, hn]
    conv_rhs => rw [addTwoPiLoop, if_pos h]
  | case2 a h =>
    refine ⟨0, ?_⟩
    rw [addTwoPiFuel, if_neg h, addTwoPiLoop, if_neg h]

theorem subTwoPiFuel_complete (a : ℝ) : ∃ n, subTwoPiFuel n a = some (subTwoPiLoop a) := by
  induction a using subTwoPiLoop.induct with
  | case1 a h ih =>
    obtain ⟨n, hn⟩ := ih
    refine ⟨n + 1, ?_⟩
    rw [subTwoPiFuel, if_pos h, hn]
    conv_rhs => rw [subTwoPiLoop, if_pos h]
  | case2 a h =>
    refine ⟨0, ?_⟩
    rw [subTwoPiFuel, if_neg h, subTwoPiLoop, if_neg h]

/-- C10: `limitAngleToRange` terminates for every real input angle: each of the
two while loops performs only finitely many iterations, so there is a finite
fuel for which the fuel-bounded loops complete and agree with the loop result. -/
theorem limitAngleToRange_terminates (a : ℝ) :
    ∃ n m, limitAngleToRangeFuel n m a = some (limitAngleToRange a) := by
  obtain ⟨n, hn⟩ := addTwoPiFuel_complete a
  obtain ⟨m, hm⟩ := subTwoPiFuel_complete (addTwoPiLoop a)
  refine ⟨n, m, ?_⟩
  rw [limitAngleToRangeFuel, hn]
  simp only [Option.some_bind]
  rw [hm, limitAngleToRange]

/-- A pixel image: `pix y x c` is the value of channel `c` at row `y`,
column `x`. Out-of-range coordinates are never read by the bounds-guarded
operations below. -/
structure Image where
  width : ℕ
  height : ℕ
  channels : ℕ
  pix : ℕ → ℕ → ℕ → ℝ

/-- `cv.CreateImage`: a freshly allocated buffer, modelled with zero contents. -/
def blankImage (w h c : ℕ) : Image :=
  ⟨w, h, c, fun _ _ _ => 0⟩

/-- `cv.Get2D(img, row, col)[0]`: bounds-checked read of the first channel;
`none` models the exception raised on an out-of-range access. -/
def Image.get2D (img : Image) (row col : ℤ) : Option ℝ :=
  if 0 ≤ row ∧ row < (img.height : ℤ) ∧ 0 ≤ col ∧ col < (img.width : ℤ) then
    some (img.pix row.toNat col.toNat 0)
  else none

/-- Clamp an integer coordinate into `[0, n-1]` (replicated-border indexing). -/
def clampIdx (v : ℤ) (n : ℕ) : ℕ :=
  (max 0 (min v ((n : ℤ) - 1))).toNat

/-- Modelled from the spec: `cv.Filter2D`, the external filtering primitive
("convolve the image with the real and imaginary kernel parts"), as a 2-D
kernel sweep with centre anchor and replicated borders on the first channel. -/
noncomputable def filter2D (src : Image) (kernel : ℕ → ℕ → ℝ) (ksize : ℕ) : Image :=
  { width := src.width, height := src.height, channels := src.channels,
    pix := fun y x _ =>
      ∑ i ∈ Finset.range ksize, ∑ j ∈ Finset.range ksize,
        kernel i j *
          src.pix (clampIdx ((y : ℤ) + i - ksize / 2) src.height)
            (clampIdx ((x : ℤ) + j - ksize / 2) src.width) 0 }

/-- `cv.Mul`: pointwise product. -/
def Image.mul (a b : Image) : Image :=
  ⟨a.width, a.height, a.channels, fun y x c => a.pix y x c * b.pix y x c⟩

/-- `cv.Add`: pointwise sum. -/
def Image.add (a b : Image) : Image :=
  ⟨a.width, a.height, a.channels, fun y x c => a.pix y x c + b.pix y x c⟩

/-- `np.linspace a b n` entry `k`: `n` uniform samples of `[a, b]` with both
endpoints included; a single sample returns the start value. -/
noncomputable def linspace (a b : ℝ) (n : ℕ) (k : ℕ) : ℝ :=
  if n ≤ 1 then a else a + (b - a) * k / ((n : ℝ) - 1)

/-- `MarkerTracker.generateSymmetryDetectorKernel`: coordinate grid over
`[-1,1]` on both axes, `z = x + i·y` per cell (`x` varying along columns),
magnitude taken before the power, kernel `z^order · exp(-8·|z|²)`; returns
the real and imaginary parts. -/
noncomputable def generateSymmetryDetectorKernel (order kernelsize : ℕ) :
    (ℕ → ℕ → ℝ) × (ℕ → ℕ → ℝ) :=
  let valueRange := linspace (-1) 1 kernelsize
  let z : ℕ → ℕ → ℂ := fun i j => (valueRange j : ℂ) + (valueRange i : ℂ) * Complex.I
  let magni : ℕ → ℕ → ℝ := fun i j => Complex.abs (z i j)
  let kern : ℕ → ℕ → ℂ := fun i j => z i j ^ order * (Real.exp (-8 * magni i j ^ 2) : ℂ)
  (fun i j => (kern i j).re, fun i j => (kern i j).im)

/-- State of `MarkerTracker`: kernel matrices, last detection, and the scratch
buffers allocated by `allocateSpaceGivenFirstFrame` and rewritten by
`locateMarker`. -/
structure MarkerTracker where
  order : ℕ
  kernelSize : ℕ
  matReal : ℕ → ℕ → ℝ
  matImag : ℕ → ℕ → ℝ
  lastMarkerLocation : Option (ℕ × ℕ)
  orientation : Option ℝ
  frameReal : Image
  frameImag : Image
  frameRealSq : Image
  frameImagSq : Image
  frameSumSq : Image

/-- `MarkerTracker.__init__(order, kernelSize, scaleFactor)`: generates the
kernel and stores each entry divided by the scale factor; the location and
orientation start unknown, scratch buffers unallocated. -/
noncomputable def MarkerTracker.init (order kernelSize : ℕ) (scaleFactor : ℝ) :
    MarkerTracker :=
  let gen := generateSymmetryDetectorKernel order kernelSize
  { order := order, kernelSize := kernelSize,
    matReal := fun i j => gen.1 i j / scaleFactor,
    matImag := fun i j => gen.2 i j / scaleFactor,
    lastMarkerLocation := none, orientation := none,
    frameReal := blankImage 0 0 0, frameImag := blankImage 0 0 0,
    frameRealSq := blankImage 0 0 0, frameImagSq := blankImage 0 0 0,
    frameSumSq := blankImage 0 0 0 }

/-- `MarkerTracker.allocateSpaceGivenFirstFrame`: scratch buffers sized to the
reference frame. -/
def MarkerTracker.allocateSpaceGivenFirstFrame (s : MarkerTracker) (frame : Image) :
    MarkerTracker :=
  { s with
    frameReal := blankImage frame.width frame.height 1,
    frameImag := blankImage frame.width frame.height 1,
    frameRealSq := blankImage frame.width frame.height 1,
    frameImagSq := blankImage frame.width frame.height 1,
    frameSumSq := blankImage frame.width frame.height 1 }

/-- The uniform grid coordinate used by the kernel formula: sample `k` of `n`
uniform samples of `[-1, 1]`. -/
noncomputable def gridCoord (n k : ℕ) : ℝ :=
  -1 + 2 * k / ((n : ℝ) - 1)

theorem linspace_eq_gridCoord (n k : ℕ) (hn : 2 ≤ n) :
    linspace (-1) 1 n k = gridCoord n k := by
  rw [linspace, if_neg (by omega), gridCoord]
  ring

theorem generate_entry (order n : ℕ) (i j : ℕ) (hn : 2 ≤ n) :
    (generateSymmetryDetectorKernel order n).1 i j
      = (((gridCoord n j : ℂ) + (gridCoord n i : ℂ) * Complex.I) ^ order).re
        * Real.exp (-8 * (gridCoord n j ^ 2 + gridCoord n i ^ 2)) ∧
    (generateSymmetryDetectorKernel order n).2 i j
      = (((gridCoord n j : ℂ) + (gridCoord n i : ℂ) * Complex.I) ^ order).im
        * Real.exp (-8 * (gridCoord n j ^ 2 + gridCoord n i ^ 2)) := by
  have habs : ∀ a b : ℝ, Complex.abs ((a : ℂ) + (b : ℂ) * Complex.I) ^ 2 = a ^ 2 + b ^ 2 := by
    intro a b
    rw [Complex.sq_abs, Complex.normSq_apply]
    simp
    ring
  have hre : ∀ w : ℂ, ∀ r : ℝ, (w * (r : ℂ)).re = w.re * r := by
    intro w r
    simp [Complex.mul_re]
  have him : ∀ w : ℂ, ∀ r : ℝ, (w * (r : ℂ)).im = w.im * r := by
    intro w r
    simp [Complex.mul_im]
  constructor
  · rw [generateSymmetryDetectorKernel]
    simp only
    rw [hre, habs, linspace_eq_gridCoord _ _ hn, linspace_eq_gridCoord _ _ hn]
  · rw [generateSymmetryDetectorKernel]
    simp only
    rw [him, habs, linspace_eq_gridCoord _ _ hn, linspace_eq_gridCoord _ _ hn]

theorem gridCoord_center (n : ℕ) (hodd : Odd n) (hn : 3 ≤ n) :
    gridCoord n ((n - 1) / 2) = 0 := by
  obtain ⟨m, hm⟩ := hodd
  subst hm
  have hdiv : (2 * m + 1 - 1) / 2 = m := by omega
  rw [hdiv, gridCoord]
  have hm0 : ((m : ℝ)) ≠ 0 := Nat.cast_ne_zero.mpr (by omega)
  push_cast
  have h2 : (2 * (m : ℝ) + 1) - 1 = 2 * m := by ring
  rw [h2]
  field_simp

/-- C8 counterexample: with order 1 and (odd) size 1 the single grid sample is
`-1` on both axes (`np.linspace(-1, 1, 1)` returns `[-1]`), so the "center"
cell `((size-1)/2, (size-1)/2) = (0, 0)` holds `Re((-1 - i)·exp(-16)) ≠ 0`:
the claim's center-cell-zero property fails for size 1. -/
theorem C8_counterexample :
    (generateSymmetryDetectorKernel 1 1).1 ((1 - 1) / 2) ((1 - 1) / 2) ≠ 0 := by
  have hre : ∀ w : ℂ, ∀ r : ℝ, (w * (r : ℂ)).re = w.re * r := by
    intro w r
    simp [Complex.mul_re]
  have hl : linspace (-1) 1 1 ((1 - 1) / 2) = -1 := by
    rw [linspace, if_pos (by norm_num)]
  have hval : (generateSymmetryDetectorKernel 1 1).1 ((1 - 1) / 2) ((1 - 1) / 2)
      = (((-1 : ℝ) : ℂ) + ((-1 : ℝ) : ℂ) * Complex.I).re
        * Real.exp (-8 * Complex.abs (((-1 : ℝ) : ℂ) + ((-1 : ℝ) : ℂ) * Complex.I) ^ 2) := by
    rw [generateSymmetryDetectorKernel]
    simp only
    rw [hl, hre, pow_one]
  rw [hval]
  have hre2 : (((-1 : ℝ) : ℂ) + ((-1 : ℝ) : ℂ) * Complex.I).re = -1 := by
    simp
  rw [hre2]
  have := Real.exp_pos (-8 * Complex.abs (((-1 : ℝ) : ℂ) + ((-1 : ℝ) : ℂ) * Complex.I) ^ 2)
  nlinarith

/-- C8 (amended: odd size at least 3; size 1 is excluded by the
counterexample): for every positive order and odd size `n ≥ 3`, the kernel
generator returns the real and imaginary parts of
`(x + i·y)^order · exp(-8·(x² + y²))` sampled on the uniform grid over
`[-1, 1]`; the tracker stores these entries divided by the scale factor; the
center cell is 0; and repeated generation with the same parameters yields
identical output. -/
theorem C8_kernel_generator (order n : ℕ) (scale : ℝ)
    (ho : 1 ≤ order) (hodd : Odd n) (hn : 3 ≤ n) :
    (∀ i j, i < n → j < n →
      (MarkerTracker.init order n scale).matReal i j
        = (((gridCoord n j : ℂ) + (gridCoord n i : ℂ) * Complex.I) ^ order).re
          * Real.exp (-8 * (gridCoord n j ^ 2 + gridCoord n i ^ 2)) / scale ∧
      (MarkerTracker.init order n scale).matImag i j
        = (((gridCoord n j : ℂ) + (gridCoord n i : ℂ) * Complex.I) ^ order).im
          * Real.exp (-8 * (gridCoord n j ^ 2 + gridCoord n i ^ 2)) / scale) ∧
    (MarkerTracker.init order n scale).matReal ((n - 1) / 2) ((n - 1) / 2) = 0 ∧
    (MarkerTracker.init order n scale).matImag ((n - 1) / 2) ((n - 1) / 2) = 0 ∧
    generateSymmetryDetectorKernel order n = generateSymmetryDetectorKernel order n := by
  have hinitR : ∀ i j, (MarkerTracker.init order n scale).matReal i j
      = (generateSymmetryDetectorKernel order n).1 i j / scale := by
    intro i j
    rw [MarkerTracker.init]
  have hinitI : ∀ i j, (MarkerTracker.init order n scale).matImag i j
      = (generateSymmetryDetectorKernel order n).2 i j / scale := by
    intro i j
    rw [MarkerTracker.init]
  have hcenter := gridCoord_center n hodd hn
  have hc := generate_entry order n ((n - 1) / 2) ((n - 1) / 2) (by omega)
  refine ⟨?_, ?_, ?_, rfl⟩
  · intro i j _ _
    have h := generate_entry order n i j (by omega)
    exact ⟨by rw [hinitR, h.1], by rw [hinitI, h.2]⟩
  · rw [hinitR, hc.1, hcenter]
    rw [show ((0 : ℝ) : ℂ) + ((0 : ℝ) : ℂ) * Complex.I = 0 by simp]
    rw [zero_pow (by omega), Complex.zero_re]
    ring
  · rw [hinitI, hc.2, hcenter]
    rw [show ((0 : ℝ) : ℂ) + ((0 : ℝ) : ℂ) * Complex.I = 0 by simp]
    rw [zero_pow (by omega), Complex.zero_im]
    ring

/-- Witness for C8 at order 7, size 21, scale factor 2500 (the defaults). -/
theorem C8_kernel_generator_witness :
    1 ≤ 7 ∧ Odd 21 ∧ 3 ≤ 21 ∧
    ((∀ i j, i < 21 → j < 21 →
      (MarkerTracker.init 7 21 2500).matReal i j
        = (((gridCoord 21 j : ℂ) + (gridCoord 21 i : ℂ) * Complex.I) ^ 7).re
          * Real.exp (-8 * (gridCoord 21 j ^ 2 + gridCoord 21 i ^ 2)) / 2500 ∧
      (MarkerTracker.init 7 21 2500).matImag i j
        = (((gridCoord 21 j : ℂ) + (gridCoord 21 i : ℂ) * Complex.I) ^ 7).im
          * Real.exp (-8 * (gridCoord 21 j ^ 2 + gridCoord 21 i ^ 2)) / 2500) ∧
    (MarkerTracker.init 7 21 2500).matReal ((21 - 1) / 2) ((21 - 1) / 2) = 0 ∧
    (MarkerTracker.init 7 21 2500).matImag ((21 - 1) / 2) ((21 - 1) / 2) = 0 ∧
    generateSymmetryDetectorKernel 7 21 = generateSymmetryDetectorKernel 7 21) :=
  ⟨by norm_num, by decide, by norm_num,
    C8_kernel_generator 7 21 2500 (by norm_num) (by decide) (by norm_num)⟩

/-- Row-major scan order of an image's pixel coordinates, as `(x, y)` pairs. -/
def rowMajor (w h : ℕ) : List (ℕ × ℕ) :=
  (List.range h).flatMap fun y => (List.range w).map fun x => (x, y)

/-- One comparison step of the `cv.MinMaxLoc` scan: strictly larger values
replace the running maximum, so the first occurrence of the maximum wins. -/
noncomputable def minMaxStep (img : Image) (st : ℝ × ℕ × ℕ) (p : ℕ × ℕ) : ℝ × ℕ × ℕ :=
  if img.pix p.2 p.1 0 > st.1 then (img.pix p.2 p.1 0, p.1, p.2) else st

/-- `cv.MinMaxLoc` (maximum part): the location `(x, y)` of the global
maximum of the single-channel image, scanning in row-major order. -/
noncomputable def minMaxLoc (img : Image) : ℕ × ℕ :=
  ((rowMajor img.width img.height).foldl (minMaxStep img) (img.pix 0 0 0, 0, 0)).2

theorem mem_rowMajor (w h x y : ℕ) : (x, y) ∈ rowMajor w h ↔ x < w ∧ y < h := by
  constructor
  · intro hmem
    rw [rowMajor] at hmem
    simp only [List.mem_flatMap, List.mem_map, List.mem_range] at hmem
    obtain ⟨a, ha, b, hb, heq⟩ := hmem
    cases heq
    exact ⟨hb, ha⟩
  · intro h
    rw [rowMajor]
    simp only [List.mem_flatMap, List.mem_map, List.mem_range]
    exact ⟨y, h.2, x, h.1, rfl⟩

theorem minMaxFold_mono (img : Image) (l : List (ℕ × ℕ)) (st : ℝ × ℕ × ℕ) :
    st.1 ≤ (l.foldl (minMaxStep img) st).1 := by
  induction l generalizing st with
  | nil => exact le_refl _
  | cons p t ih =>
    rw [List.foldl_cons]
    refine le_trans ?_ (ih (minMaxStep img st p))
    rw [minMaxStep]
    split
    · rename_i h
      exact le_of_lt h
    · exact le_refl _

theorem minMaxFold_le (img : Image) (l : List (ℕ × ℕ)) (st : ℝ × ℕ × ℕ) (p : ℕ × ℕ)
    (hp : p ∈ l) : img.pix p.2 p.1 0 ≤ (l.foldl (minMaxStep img) st).1 := by
  induction l generalizing st with
  | nil => cases hp
  | cons q t ih =>
    rw [List.foldl_cons]
    rcases List.mem_cons.mp hp with heq | hmem
    · subst heq
      refine le_trans ?_ (minMaxFold_mono img t (minMaxStep img st p))
      rw [minMaxStep]
      split
      · exact le_refl _
      · rename_i h
        exact not_lt.mp h
    · exact ih _ hmem

theorem minMaxFold_attained (img : Image) (l : List (ℕ × ℕ)) (st : ℝ × ℕ × ℕ)
    (hst : st.2.1 < img.width ∧ st.2.2 < img.height ∧ st.1 = img.pix st.2.2 st.2.1 0)
    (hl : ∀ p ∈ l, p.1 < img.width ∧ p.2 < img.height) :
    (l.foldl (minMaxStep img) st).2.1 < img.width ∧
    (l.foldl (minMaxStep img) st).2.2 < img.height ∧
    (l.foldl (minMaxStep img) st).1
      = img.pix (l.foldl (minMaxStep img) st).2.2 (l.foldl (minMaxStep img) st).2.1 0 := by
  induction l generalizing st with
  | nil => exact hst
  | cons q t ih =>
    rw [List.foldl_cons]
    refine ih (minMaxStep img st q) ?_ (fun p hp => hl p (List.mem_cons_of_mem q hp))
    rw [minMaxStep]
    split
    · exact ⟨(hl q (List.mem_cons_self q t)).1, (hl q (List.mem_cons_self q t)).2, rfl⟩
    · exact hst

theorem minMaxLoc_spec (img : Image) (hw : 0 < img.width) (hh : 0 < img.height) :
    (minMaxLoc img).1 < img.width ∧ (minMaxLoc img).2 < img.height ∧
    ∀ x y, x < img.width → y < img.height →
      img.pix y x 0 ≤ img.pix (minMaxLoc img).2 (minMaxLoc img).1 0 := by
  have hatt := minMaxFold_attained img (rowMajor img.width img.height)
    (img.pix 0 0 0, 0, 0) ⟨hw, hh, rfl⟩
    (fun p hp => by
      have := (mem_rowMajor img.width img.height p.1 p.2).mp (by simpa using hp)
      exact this)
  refine ⟨hatt.1, hatt.2.1, ?_⟩
  intro x y hx hy
  have hmem : (x, y) ∈ rowMajor img.width img.height :=
    (mem_rowMajor img.width img.height x y).mpr ⟨hx, hy⟩
  have hle := minMaxFold_le img (rowMajor img.width img.height)
    (img.pix 0 0 0, 0, 0) (x, y) hmem
  rw [minMaxLoc]
  calc img.pix y x 0
      ≤ ((rowMajor img.width img.height).foldl (minMaxStep img) (img.pix 0 0 0, 0, 0)).1 := hle
    _ = _ := hatt.2.2

theorem minMaxFold_zero (img : Image) (hz : ∀ y x, img.pix y x 0 = 0)
    (l : List (ℕ × ℕ)) (st : ℝ × ℕ × ℕ) (hst : st.1 = 0) :
    l.foldl (minMaxStep img) st = st := by
  induction l with
  | nil => rfl
  | cons p t ih =>
    rw [List.foldl_cons]
    have hstep : minMaxStep img st p = st := by
      rw [minMaxStep, if_neg]
      rw [hz, hst]
      exact lt_irrefl 0
    rw [hstep]
    exact ih

theorem minMaxLoc_zero (img : Image) (hz : ∀ y x, img.pix y x 0 = 0) :
    minMaxLoc img = (0, 0) := by
  rw [minMaxLoc, minMaxFold_zero img hz _ _ (hz 0 0)]

/-- Candidate angle `k` of the orientation disambiguation loop:
`orient = base + 2*k*π/order`. -/
noncomputable def candidateAngle (base : ℝ) (order k : ℕ) : ℝ :=
  base + 2 * k * Real.pi / order

/-- One iteration of the orientation probing loop: the probe point lies at
distance 30 along the candidate angle, both coordinates truncated by Python
`int()`; an out-of-image probe (the `cv.Get2D` exception, swallowed by
`except: pass`) leaves the running best unchanged, otherwise the best updates
on strictly larger intensity. -/
noncomputable def probeStep (frame : Image) (xm ym : ℕ) (base : ℝ) (order : ℕ)
    (st : ℝ × ℝ) (k : ℕ) : ℝ × ℝ :=
  let orient := candidateAngle base order k
  let xm2 := pyInt ((xm : ℝ) + 30 * Real.cos orient)
  let ym2 := pyInt ((ym : ℝ) + 30 * Real.sin orient)
  match frame.get2D ym2 xm2 with
  | none => st
  | some v => if v > st.1 then (v, orient) else st

/-- The disambiguation loop `for k in range(order)` with initial best value 0
and best angle 0. -/
noncomputable def probeFold (frame : Image) (xm ym : ℕ) (base : ℝ) (order : ℕ) : ℝ × ℝ :=
  (List.range order).foldl (probeStep frame xm ym base order) (0, 0)

/-- `MarkerTracker.determineMarkerOrientation`: base angle from the filtered
responses at the peak (always in bounds after `locateMarker`), probe the
`order` candidate angles, store the best candidate normalized by
`limitAngleToRange`. -/
noncomputable def MarkerTracker.determineMarkerOrientation (s : MarkerTracker)
    (frame : Image) : MarkerTracker :=
  let xm := (s.lastMarkerLocation.getD (0, 0)).1
  let ym := (s.lastMarkerLocation.getD (0, 0)).2
  let realval := (s.frameReal.get2D ym xm).getD 0
  let imagval := (s.frameImag.get2D ym xm).getD 0
  let base := (atan2 (-realval) imagval - Real.pi / 2) / s.order
  let best := probeFold frame xm ym base s.order
  { s with orientation := some (limitAngleToRange best.2) }

/-- `MarkerTracker.locateMarker`: filter with both kernel parts, square,
sum, take the maximum-energy pixel, record it as the last marker location,
then compute the orientation. Returns the located pixel `(x, y)` together
with the updated state. -/
noncomputable def MarkerTracker.locateMarker (s : MarkerTracker) (frame : Image) :
    (ℕ × ℕ) × MarkerTracker :=
  let frameReal := filter2D frame s.matReal s.kernelSize
  let frameImag := filter2D frame s.matImag s.kernelSize
  let frameRealSq := frameReal.mul frameReal
  let frameImagSq := frameImag.mul frameImag
  let frameSumSq := frameRealSq.add frameImagSq
  let maxLoc := minMaxLoc frameSumSq
  let s1 := { s with
    frameReal := frameReal,
    frameImag := frameImag,
    frameRealSq := frameRealSq,
    frameImagSq := frameImagSq,
    frameSumSq := frameSumSq,
    lastMarkerLocation := some maxLoc }
  (maxLoc, MarkerTracker.determineMarkerOrientation s1 frame)

theorem locateMarker_fst (s : MarkerTracker) (frame : Image) :
    (MarkerTracker.locateMarker s frame).1
      = minMaxLoc (((filter2D frame s.matReal s.kernelSize).mul
          (filter2D frame s.matReal s.kernelSize)).add
        ((filter2D frame s.matImag s.kernelSize).mul
          (filter2D frame s.matImag s.kernelSize))) := rfl

theorem locateMarker_lastLocation (s : MarkerTracker) (frame : Image) :
    (MarkerTracker.locateMarker s frame).2.lastMarkerLocation
      = some (MarkerTracker.locateMarker s frame).1 := rfl

/-- C7: for every input image, `locateMarker` returns the coordinates of a
pixel at which the per-pixel energy (squared real filter response plus squared
imaginary filter response) attains its global maximum, and records those
coordinates as the tracker's last marker location. -/
theorem C7_locateMarker (s : MarkerTracker) (frame : Image)
    (hw : 0 < frame.width) (hh : 0 < frame.height) :
    (MarkerTracker.locateMarker s frame).1.1 < frame.width ∧
    (MarkerTracker.locateMarker s frame).1.2 < frame.height ∧
    (∀ x y, x < frame.width → y < frame.height →
      (filter2D frame s.matReal s.kernelSize).pix y x 0 ^ 2
          + (filter2D frame s.matImag s.kernelSize).pix y x 0 ^ 2
        ≤ (filter2D frame s.matReal s.kernelSize).pix
              (MarkerTracker.locateMarker s frame).1.2
              (MarkerTracker.locateMarker s frame).1.1 0 ^ 2
          + (filter2D frame s.matImag s.kernelSize).pix
              (MarkerTracker.locateMarker s frame).1.2
              (MarkerTracker.locateMarker s frame).1.1 0 ^ 2) ∧
    (MarkerTracker.locateMarker s frame).2.lastMarkerLocation
      = some (MarkerTracker.locateMarker s frame).1 := by
  have hpix : ∀ y x, (((filter2D frame s.matReal s.kernelSize).mul
        (filter2D frame s.matReal s.kernelSize)).add
      ((filter2D frame s.matImag s.kernelSize).mul
        (filter2D frame s.matImag s.kernelSize))).pix y x 0
      = (filter2D frame s.matReal s.kernelSize).pix y x 0 ^ 2
        + (filter2D frame s.matImag s.kernelSize).pix y x 0 ^ 2 := by
    intro y x
    simp only [Image.add, Image.mul]
    ring
  have hwidth : (((filter2D frame s.matReal s.kernelSize).mul
        (filter2D frame s.matReal s.kernelSize)).add
      ((filter2D frame s.matImag s.kernelSize).mul
        (filter2D frame s.matImag s.kernelSize))).width = frame.width := rfl
  have hheight : (((filter2D frame s.matReal s.kernelSize).mul
        (filter2D frame s.matReal s.kernelSize)).add
      ((filter2D frame s.matImag s.kernelSize).mul
        (filter2D frame s.matImag s.kernelSize))).height = frame.height := rfl
  have hspec := minMaxLoc_spec (((filter2D frame s.matReal s.kernelSize).mul
        (filter2D frame s.matReal s.kernelSize)).add
      ((filter2D frame s.matImag s.kernelSize).mul
        (filter2D frame s.matImag s.kernelSize)))
    (by rw [hwidth]; exact hw) (by rw [hheight]; exact hh)
  rw [hwidth, hheight] at hspec
  rw [locateMarker_fst]
  refine ⟨hspec.1, hspec.2.1, ?_, locateMarker_lastLocation s frame⟩
  intro x y hx hy
  have := hspec.2.2 x y hx hy
  rw [hpix, hpix] at this
  exact this

/-- A tracker state with empty kernels and buffers, used as a concrete input. -/
def dummyTracker : MarkerTracker :=
  { order := 0, kernelSize := 0,
    matReal := fun _ _ => 0, matImag := fun _ _ => 0,
    lastMarkerLocation := none, orientation := none,
    frameReal := blankImage 0 0 0, frameImag := blankImage 0 0 0,
    frameRealSq := blankImage 0 0 0, frameImagSq := blankImage 0 0 0,
    frameSumSq := blankImage 0 0 0 }

/-- Witness for C7 on a concrete 1-by-1 frame. -/
theorem C7_locateMarker_witness :
    0 < (blankImage 1 1 1).width ∧ 0 < (blankImage 1 1 1).height ∧
    ((MarkerTracker.locateMarker dummyTracker (blankImage 1 1 1)).1.1
        < (blankImage 1 1 1).width ∧
    (MarkerTracker.locateMarker dummyTracker (blankImage 1 1 1)).1.2
        < (blankImage 1 1 1).height ∧
    (∀ x y, x < (blankImage 1 1 1).width → y < (blankImage 1 1 1).height →
      (filter2D (blankImage 1 1 1) dummyTracker.matReal dummyTracker.kernelSize).pix y x 0 ^ 2
          + (filter2D (blankImage 1 1 1) dummyTracker.matImag dummyTracker.kernelSize).pix y x 0 ^ 2
        ≤ (filter2D (blankImage 1 1 1) dummyTracker.matReal dummyTracker.kernelSize).pix
              (MarkerTracker.locateMarker dummyTracker (blankImage 1 1 1)).1.2
              (MarkerTracker.locateMarker dummyTracker (blankImage 1 1 1)).1.1 0 ^ 2
          + (filter2D (blankImage 1 1 1) dummyTracker.matImag dummyTracker.kernelSize).pix
              (MarkerTracker.locateMarker dummyTracker (blankImage 1 1 1)).1.2
              (MarkerTracker.locateMarker dummyTracker (blankImage 1 1 1)).1.1 0 ^ 2) ∧
    (MarkerTracker.locateMarker dummyTracker (blankImage 1 1 1)).2.lastMarkerLocation
      = some (MarkerTracker.locateMarker dummyTracker (blankImage 1 1 1)).1) :=
  ⟨by decide, by decide,
    C7_locateMarker dummyTracker (blankImage 1 1 1) (by decide) (by decide)⟩

/-- The bounds-checked intensity read attempted by probe `k` of the
orientation loop. -/
noncomputable def probeRead (frame : Image) (xm ym : ℕ) (base : ℝ) (order k : ℕ) :
    Option ℝ :=
  frame.get2D (pyInt ((ym : ℝ) + 30 * Real.sin (candidateAngle base order k)))
    (pyInt ((xm : ℝ) + 30 * Real.cos (candidateAngle base order k)))

theorem probeFold_mono (frame : Image) (xm ym : ℕ) (base : ℝ) (order : ℕ)
    (l : List ℕ) (st : ℝ × ℝ) :
    st.1 ≤ (l.foldl (probeStep frame xm ym base order) st).1 := by
  induction l generalizing st with
  | nil => exact le_refl _
  | cons k t ih =>
    rw [List.foldl_cons]
    refine le_trans ?_ (ih _)
    simp only [probeStep]
    split
    · exact le_refl _
    · split
      · rename_i hgt
        exact le_of_lt hgt
      · exact le_refl _

theorem probeFold_le (frame : Image) (xm ym : ℕ) (base : ℝ) (order : ℕ)
    (l : List ℕ) (st : ℝ × ℝ) (k : ℕ) (hk : k ∈ l) (v : ℝ)
    (hv : probeRead frame xm ym base order k = some v) :
    v ≤ (l.foldl (probeStep frame xm ym base order) st).1 := by
  induction l generalizing st with
  | nil => cases hk
  | cons q t ih =>
    rw [List.foldl_cons]
    rcases List.mem_cons.mp hk with heq | hmem
    · subst heq
      refine le_trans ?_ (probeFold_mono frame xm ym base order t _)
      rw [probeRead] at hv
      simp only [probeStep]
      rw [hv]
      split
      · rename_i heq
        exact (Option.some_ne_none v heq).elim
      · rename_i w heq
        injection heq with hw
        subst hw
        split
        · exact le_refl _
        · rename_i hle
          exact not_lt.mp hle
    · exact ih _ hmem

theorem probeFold_attained (frame : Image) (xm ym : ℕ) (base : ℝ) (order : ℕ)
    (l : List ℕ) (st : ℝ × ℝ) (hl : ∀ k ∈ l, k < order)
    (hst : 0 ≤ st.1 ∧ ((st.1 = 0 ∧ st.2 = 0) ∨
      ∃ k, k < order ∧ st.2 = candidateAngle base order k ∧
        probeRead frame xm ym base order k = some st.1)) :
    0 ≤ (l.foldl (probeStep frame xm ym base order) st).1 ∧
    (((l.foldl (probeStep frame xm ym base order) st).1 = 0 ∧
      (l.foldl (probeStep frame xm ym base order) st).2 = 0) ∨
      ∃ k, k < order ∧
        (l.foldl (probeStep frame xm ym base order) st).2 = candidateAngle base order k ∧
        probeRead frame xm ym base order k
          = some (l.foldl (probeStep frame xm ym base order) st).1) := by
  induction l generalizing st with
  | nil => exact hst
  | cons q t ih =>
    rw [List.foldl_cons]
    refine ih _ (fun k hk => hl k (List.mem_cons_of_mem q hk)) ?_
    simp only [probeStep]
    split
    · exact hst
    · rename_i v hread
      split
      · rename_i hgt
        refine ⟨le_of_lt (lt_of_le_of_lt hst.1 hgt), Or.inr ⟨q, hl q (List.mem_cons_self q t), rfl, ?_⟩⟩
        rw [probeRead]
        exact hread
      · exact hst

/-- C5 (amended: the probe point coordinates are truncated toward zero by
Python `int()`, not rounded to the nearest pixel): orientation disambiguation
examines the `order` candidate angles `base + 2πk/order` for `k < order`,
probes each at distance 30 pixels with truncated coordinates, skips probes
outside the image without surfacing an error, keeps the candidate with the
highest intensity starting from best intensity 0 and best angle 0, and returns
orientation 0 when every probe is out of bounds. -/
theorem C5_orientation (s : MarkerTracker) (frame : Image) (xm ym : ℕ) (base : ℝ)
    (hxy : s.lastMarkerLocation.getD (0, 0) = (xm, ym))
    (hbase : base = (atan2 (-((s.frameReal.get2D ym xm).getD 0))
      ((s.frameImag.get2D ym xm).getD 0) - Real.pi / 2) / s.order) :
    (MarkerTracker.determineMarkerOrientation s frame).orientation
        = some (limitAngleToRange (probeFold frame xm ym base s.order).2) ∧
    0 ≤ (probeFold frame xm ym base s.order).1 ∧
    (∀ k, k < s.order → ∀ v, probeRead frame xm ym base s.order k = some v →
      v ≤ (probeFold frame xm ym base s.order).1) ∧
    (((probeFold frame xm ym base s.order).1 = 0 ∧
        (probeFold frame xm ym base s.order).2 = 0) ∨
      ∃ k, k < s.order ∧
        (probeFold frame xm ym base s.order).2 = candidateAngle base s.order k ∧
        probeRead frame xm ym base s.order k
          = some (probeFold frame xm ym base s.order).1) ∧
    ((∀ k, k < s.order → probeRead frame xm ym base s.order k = none) →
      (MarkerTracker.determineMarkerOrientation s frame).orientation = some 0) := by
  have hatt := probeFold_attained frame xm ym base s.order (List.range s.order) (0, 0)
    (fun k hk => List.mem_range.mp hk) ⟨le_refl 0, Or.inl ⟨rfl, rfl⟩⟩
  have hmain : (MarkerTracker.determineMarkerOrientation s frame).orientation
      = some (limitAngleToRange (probeFold frame xm ym base s.order).2) := by
    rw [MarkerTracker.determineMarkerOrientation]
    simp only [hxy, hbase]
  refine ⟨hmain, hatt.1, ?_, hatt.2, ?_⟩
  · intro k hk v hv
    exact probeFold_le frame xm ym base s.order (List.range s.order) (0, 0) k
      (List.mem_range.mpr hk) v hv
  · intro hnone
    have hz : (probeFold frame xm ym base s.order).2 = 0 := by
      rcases hatt.2 with h | ⟨k, hk, _, hread⟩
      · exact h.2
      · rw [hnone k hk] at hread
        cases hread
    rw [hmain, hz, limitAngleToRange_zero]

/-- The base angle value at the concrete witness state. -/
noncomputable def c5BaseAngle : ℝ :=
  (atan2 (-((dummyTracker.frameReal.get2D 0 0).getD 0))
    ((dummyTracker.frameImag.get2D 0 0).getD 0) - Real.pi / 2) / dummyTracker.order

/-- Witness for C5 at a concrete tracker state and frame. -/
theorem C5_orientation_witness :
    dummyTracker.lastMarkerLocation.getD (0, 0) = ((0 : ℕ), (0 : ℕ)) ∧
    c5BaseAngle = (atan2 (-((dummyTracker.frameReal.get2D 0 0).getD 0))
      ((dummyTracker.frameImag.get2D 0 0).getD 0) - Real.pi / 2) / dummyTracker.order ∧
    ((MarkerTracker.determineMarkerOrientation dummyTracker (blankImage 1 1 1)).orientation
        = some (limitAngleToRange
            (probeFold (blankImage 1 1 1) 0 0 c5BaseAngle dummyTracker.order).2) ∧
    0 ≤ (probeFold (blankImage 1 1 1) 0 0 c5BaseAngle dummyTracker.order).1 ∧
    (∀ k, k < dummyTracker.order → ∀ v,
      probeRead (blankImage 1 1 1) 0 0 c5BaseAngle dummyTracker.order k = some v →
      v ≤ (probeFold (blankImage 1 1 1) 0 0 c5BaseAngle dummyTracker.order).1) ∧
    (((probeFold (blankImage 1 1 1) 0 0 c5BaseAngle dummyTracker.order).1 = 0 ∧
        (probeFold (blankImage 1 1 1) 0 0 c5BaseAngle dummyTracker.order).2 = 0) ∨
      ∃ k, k < dummyTracker.order ∧
        (probeFold (blankImage 1 1 1) 0 0 c5BaseAngle dummyTracker.order).2
          = candidateAngle c5BaseAngle dummyTracker.order k ∧
        probeRead (blankImage 1 1 1) 0 0 c5BaseAngle dummyTracker.order k
          = some (probeFold (blankImage 1 1 1) 0 0 c5BaseAngle dummyTracker.order).1) ∧
    ((∀ k, k < dummyTracker.order →
        probeRead (blankImage 1 1 1) 0 0 c5BaseAngle dummyTracker.order k = none) →
      (MarkerTracker.determineMarkerOrientation dummyTracker (blankImage 1 1 1)).orientation
        = some 0)) :=
  ⟨rfl, rfl, C5_orientation dummyTracker (blankImage 1 1 1) 0 0 c5BaseAngle rfl rfl⟩

/-- The claim's reading of the probe arithmetic: identical to `probeStep`
except the probe point is rounded to the nearest pixel instead of truncated
toward zero by `int()`. Defined from the claim's words only for comparison
with the code's behaviour. -/
noncomputable def probeStepRounded (frame : Image) (xm ym : ℕ) (base : ℝ) (order : ℕ)
    (st : ℝ × ℝ) (k : ℕ) : ℝ × ℝ :=
  let orient := candidateAngle base order k
  let xm2 := round ((xm : ℝ) + 30 * Real.cos orient)
  let ym2 := round ((ym : ℝ) + 30 * Real.sin orient)
  match frame.get2D ym2 xm2 with
  | none => st
  | some v => if v > st.1 then (v, orient) else st

/-- The disambiguation loop under the claim's rounded-probe reading. -/
noncomputable def probeFoldRounded (frame : Image) (xm ym : ℕ) (base : ℝ)
    (order : ℕ) : ℝ × ℝ :=
  (List.range order).foldl (probeStepRounded frame xm ym base order) (0, 0)

/-- `determineMarkerOrientation` as the claim describes it (probe points
rounded to the nearest pixel). -/
noncomputable def determineMarkerOrientationRounded (s : MarkerTracker)
    (frame : Image) : MarkerTracker :=
  let xm := (s.lastMarkerLocation.getD (0, 0)).1
  let ym := (s.lastMarkerLocation.getD (0, 0)).2
  let realval := (s.frameReal.get2D ym xm).getD 0
  let imagval := (s.frameImag.get2D ym xm).getD 0
  let base := (atan2 (-realval) imagval - Real.pi / 2) / s.order
  let best := probeFoldRounded frame xm ym base s.order
  { s with orientation := some (limitAngleToRange best.2) }

/-- A concrete order-1 tracker state whose base angle evaluates to `π/6`. -/
noncomputable def probeTracker : MarkerTracker :=
  { order := 1, kernelSize := 21,
    matReal := fun _ _ => 0, matImag := fun _ _ => 0,
    lastMarkerLocation := some (40, 40), orientation := none,
    frameReal := ⟨100, 100, 1, fun _ _ _ => -Real.sqrt 3⟩,
    frameImag := ⟨100, 100, 1, fun _ _ _ => -1⟩,
    frameRealSq := blankImage 100 100 1,
    frameImagSq := blankImage 100 100 1,
    frameSumSq := blankImage 100 100 1 }

/-- A 100×100 frame whose only bright pixel is at row 55, column 66: the
probe at angle `π/6` from `(40, 40)` lands on `x = 40 + 15·√3 ≈ 65.98`, which
truncates to 65 but rounds to 66. -/
def probeFrame : Image :=
  ⟨100, 100, 1, fun y x _ => if y = 55 ∧ x = 66 then 10 else 0⟩

theorem sqrt_three_lb : (1.7 : ℝ) ≤ Real.sqrt 3 := by
  nlinarith [Real.sq_sqrt (show (0:ℝ) ≤ 3 by norm_num), Real.sqrt_nonneg 3]

theorem sqrt_three_ub : Real.sqrt 3 < (26 / 15 : ℝ) := by
  nlinarith [Real.sq_sqrt (show (0:ℝ) ≤ 3 by norm_num), Real.sqrt_nonneg 3]

theorem arctan_sqrt_three : Real.arctan (Real.sqrt 3) = Real.pi / 3 := by
  have ht : Real.tan (Real.pi / 3) = Real.sqrt 3 := by
    rw [Real.tan_eq_sin_div_cos, Real.sin_pi_div_three, Real.cos_pi_div_three]
    field_simp
  rw [← ht]
  exact Real.arctan_tan (by linarith [Real.pi_pos]) (by linarith [Real.pi_pos])

theorem atan2_sqrt_three_neg_one : atan2 (Real.sqrt 3) (-1) = 2 * Real.pi / 3 := by
  rw [atan2, if_neg (by norm_num), if_pos (by norm_num), if_pos (Real.sqrt_nonneg 3)]
  rw [show Real.sqrt 3 / (-1 : ℝ) = -Real.sqrt 3 by ring, Real.arctan_neg, arctan_sqrt_three]
  ring

/-- C5 counterexample: at the concrete state `probeTracker` (order 1, peak at
`(40, 40)`, base angle `π/6`) on `probeFrame`, the code's truncated probe
reads the dark pixel `(65, 55)` and yields orientation 0, while the claim's
rounded probe would read the bright pixel `(66, 55)` and yield `π/6`: the
probe point is truncated toward zero, not rounded to the nearest pixel. -/
theorem C5_counterexample :
    (MarkerTracker.determineMarkerOrientation probeTracker probeFrame).orientation
        = some 0 ∧
    (determineMarkerOrientationRounded probeTracker probeFrame).orientation
        = some (Real.pi / 6) ∧
    (0 : ℝ) ≠ Real.pi / 6 := by
  have hpi := Real.pi_pos
  have hreal : (probeTracker.frameReal.get2D 40 40).getD 0 = -Real.sqrt 3 := by
    rw [show probeTracker.frameReal = ⟨100, 100, 1, fun _ _ _ => -Real.sqrt 3⟩ from rfl]
    rw [Image.get2D, if_pos (by norm_num)]
    rfl
  have himag : (probeTracker.frameImag.get2D 40 40).getD 0 = -1 := by
    rw [show probeTracker.frameImag = ⟨100, 100, 1, fun _ _ _ => -1⟩ from rfl]
    rw [Image.get2D, if_pos (by norm_num)]
    rfl
  have hbeq : (atan2 (-((probeTracker.frameReal.get2D 40 40).getD 0))
      ((probeTracker.frameImag.get2D 40 40).getD 0) - Real.pi / 2)
        / (probeTracker.order : ℝ) = Real.pi / 6 := by
    rw [hreal, himag, neg_neg, atan2_sqrt_three_neg_one,
      show ((probeTracker.order : ℕ) : ℝ) = 1 from by norm_num [probeTracker]]
    ring
  have hcand : candidateAngle (Real.pi / 6) 1 0 = Real.pi / 6 := by
    rw [candidateAngle]
    norm_num
  have hcos : Real.cos (Real.pi / 6) = Real.sqrt 3 / 2 := Real.cos_pi_div_six
  have hsin : Real.sin (Real.pi / 6) = 1 / 2 := Real.sin_pi_div_six
  have hlb := sqrt_three_lb
  have hub := sqrt_three_ub
  have hx : pyInt (((40 : ℕ) : ℝ) + 30 * (Real.sqrt 3 / 2)) = 65 := by
    rw [pyInt, if_pos (by positivity)]
    rw [Int.floor_eq_iff]
    constructor
    · push_cast
      nlinarith
    · push_cast
      nlinarith
  have hy : pyInt (((40 : ℕ) : ℝ) + 30 * (1 / 2)) = 55 := by
    rw [pyInt, if_pos (by positivity)]
    rw [show ((40 : ℕ) : ℝ) + 30 * (1 / 2) = ((55 : ℤ) : ℝ) by push_cast; ring]
    exact Int.floor_intCast 55
  have hget : probeFrame.get2D 55 65 = some 0 := by
    rw [Image.get2D, if_pos (by norm_num [probeFrame])]
    norm_num [probeFrame]
    decide
  have hfold : probeFold probeFrame 40 40 (Real.pi / 6) 1 = (0, 0) := by
    rw [probeFold, show List.range 1 = [0] from rfl, List.foldl_cons, List.foldl_nil]
    simp only [probeStep]
    rw [hcand, hcos, hsin, hx, hy, hget]
    simp
  have hxR : round (((40 : ℕ) : ℝ) + 30 * (Real.sqrt 3 / 2)) = 66 := by
    rw [round_eq, Int.floor_eq_iff]
    constructor
    · push_cast
      nlinarith
    · push_cast
      nlinarith
  have hyR : round (((40 : ℕ) : ℝ) + 30 * (1 / 2)) = 55 := by
    rw [show ((40 : ℕ) : ℝ) + 30 * (1 / 2) = ((55 : ℤ) : ℝ) by push_cast; ring]
    exact round_intCast 55
  have hgetR : probeFrame.get2D 55 66 = some 10 := by
    rw [Image.get2D, if_pos (by norm_num [probeFrame])]
    norm_num [probeFrame]
    decide
  have hfoldR : probeFoldRounded probeFrame 40 40 (Real.pi / 6) 1 = (10, Real.pi / 6) := by
    rw [probeFoldRounded, show List.range 1 = [0] from rfl, List.foldl_cons, List.foldl_nil]
    simp only [probeStepRounded]
    rw [hcand, hcos, hsin, hxR, hyR, hgetR]
    norm_num
  refine ⟨?_, ?_, by linarith⟩
  · have hmain : (MarkerTracker.determineMarkerOrientation probeTracker probeFrame).orientation
        = some (limitAngleToRange (probeFold probeFrame 40 40
          ((atan2 (-((probeTracker.frameReal.get2D 40 40).getD 0))
            ((probeTracker.frameImag.get2D 40 40).getD 0) - Real.pi / 2)
              / (probeTracker.order : ℝ)) probeTracker.order).2) := rfl
    rw [hmain, hbeq, show probeTracker.order = 1 from rfl, hfold, limitAngleToRange_zero]
  · have hmain : (determineMarkerOrientationRounded probeTracker probeFrame).orientation
        = some (limitAngleToRange (probeFoldRounded probeFrame 40 40
          ((atan2 (-((probeTracker.frameReal.get2D 40 40).getD 0))
            ((probeTracker.frameImag.get2D 40 40).getD 0) - Real.pi / 2)
              / (probeTracker.order : ℝ)) probeTracker.order).2) := rfl
    rw [hmain, hbeq, show probeTracker.order = 1 from rfl, hfoldR]
    rw [limitAngleToRange_eq_self (Real.pi / 6) (by linarith) (by linarith)]

/-- The fixed search-window width set by `TrackerInWindowMode.__init__`. -/
def windowWidth : ℕ := 100

/-- The fixed search-window height set by `TrackerInWindowMode.__init__`. -/
def windowHeight : ℕ := 100

/-- State of `TrackerInWindowMode`: the window images, the wrapped detector,
the (never updated) initialization flag, and the last window rectangle. -/
structure TrackerInWindowMode where
  frameGray : Image
  originalImage : Image
  reducedImage : Image
  markerTracker : MarkerTracker
  trackerIsInitialized : Bool
  subImagePosition : Option (ℤ × ℤ × ℕ × ℕ)

/-- `TrackerInWindowMode.__init__(order)`: 100×100 window buffers and a
detector with kernel size 21 and scale factor 2500. -/
noncomputable def TrackerInWindowMode.init (order : ℕ) : TrackerInWindowMode :=
  { frameGray := blankImage windowWidth windowHeight 1,
    originalImage := blankImage windowWidth windowHeight 3,
    reducedImage := blankImage 0 0 0,
    markerTracker := MarkerTracker.init order 21 2500,
    trackerIsInitialized := false,
    subImagePosition := none }

/-- `cv.GetSubRect`: the sub-image view at the given rectangle (meaningful
when the rectangle lies inside the frame, which `cropFrame` checks). -/
def getSubRect (frame : Image) (rect : ℤ × ℤ × ℕ × ℕ) : Image :=
  ⟨rect.2.2.1, rect.2.2.2, frame.channels,
    fun y x c => frame.pix (y + rect.2.1.toNat) (x + rect.1.toNat) c⟩

/-- Modelled from the spec: `cv.ConvertScale` with default unit scaling, a
depth conversion that preserves pixel values. -/
def convertScale (src : Image) : Image :=
  ⟨src.width, src.height, src.channels, src.pix⟩

/-- Modelled from the spec: `cv.CvtColor` with `CV_RGB2GRAY` ("converts to a
single-channel grayscale representation"): the standard luminance combination
of the three channels. -/
noncomputable def cvtColorRGB2Gray (src : Image) : Image :=
  ⟨src.width, src.height, 1,
    fun y x _ => 0.299 * src.pix y x 0 + 0.587 * src.pix y x 1 + 0.114 * src.pix y x 2⟩

/-- The clamped window corner computed by `TrackerInWindowMode.cropFrame`:
subtract half the window size, clamp below to 1 first, then clamp above to
`frameDim - windowDim`. -/
def cropCorner (last : ℤ) (frameDim wdim : ℕ) : ℤ :=
  let c0 := last - (wdim / 2 : ℕ)
  let c1 := if c0 < 1 then 1 else c0
  if c1 > (frameDim : ℤ) - (wdim : ℤ) then (frameDim : ℤ) - (wdim : ℤ) else c1

/-- The condition under which the `try` block of `cropFrame` succeeds: the
sub-rectangle lies inside the frame (otherwise `cv.GetSubRect` raises) and
the frame has three channels (otherwise the `CV_RGB2GRAY` conversion raises). -/
def cropOk (frame : Image) (xc yc : ℤ) (w h : ℕ) : Prop :=
  0 ≤ xc ∧ 0 ≤ yc ∧ xc + w ≤ (frame.width : ℤ) ∧ yc + h ≤ (frame.height : ℤ) ∧
    frame.channels = 3

instance cropOk.dec (frame : Image) (xc yc : ℤ) (w h : ℕ) :
    Decidable (cropOk frame xc yc w h) := by
  unfold cropOk
  infer_instance

/-- `TrackerInWindowMode.cropFrame`: (re)allocate when the flag is unset (the
source never sets it), clamp the window corner, record the window rectangle,
then extract and convert the window; a failure in the extraction/conversion
is caught (`except: pass`), leaving the window images unchanged — but the
recorded rectangle was already updated before the failing call. -/
noncomputable def TrackerInWindowMode.cropFrame (s : TrackerInWindowMode) (frame : Image)
    (lastMarkerLocationX lastMarkerLocationY : ℤ) : TrackerInWindowMode :=
  let s0 := if s.trackerIsInitialized then s
    else { s with
      markerTracker := s.markerTracker.allocateSpaceGivenFirstFrame s.originalImage,
      reducedImage := blankImage windowWidth windowHeight 3 }
  let xCornerPos := cropCorner lastMarkerLocationX frame.width windowWidth
  let yCornerPos := cropCorner lastMarkerLocationY frame.height windowHeight
  let rect := (xCornerPos, yCornerPos, windowWidth, windowHeight)
  let s1 := { s0 with subImagePosition := some rect }
  if cropOk frame xCornerPos yCornerPos windowWidth windowHeight then
    let reduced := getSubRect frame rect
    let original := convertScale reduced
    { s1 with
      reducedImage := reduced,
      originalImage := original,
      frameGray := cvtColorRGB2Gray original }
  else
    s1

/-- `TrackerInWindowMode.locateMarker`: run the wrapped detector on the
cropped grayscale window, then translate the local result by the window
corner. The debug drawing on the reduced image has no effect on any tracked
state and is omitted. -/
noncomputable def TrackerInWindowMode.locateMarker (s : TrackerInWindowMode) :
    (ℤ × ℤ × ℝ) × TrackerInWindowMode :=
  let r := s.markerTracker.locateMarker s.frameGray
  let orientation := r.2.orientation.getD 0
  let corner := s.subImagePosition.getD (0, 0, windowWidth, windowHeight)
  (((r.1.1 : ℤ) + corner.1, (r.1.2 : ℤ) + corner.2.1, orientation),
    { s with markerTracker := r.2 })

theorem cropFrame_subImagePosition (s : TrackerInWindowMode) (frame : Image)
    (lastX lastY : ℤ) :
    (s.cropFrame frame lastX lastY).subImagePosition
      = some (cropCorner lastX frame.width windowWidth,
          cropCorner lastY frame.height windowHeight, windowWidth, windowHeight) := by
  rw [TrackerInWindowMode.cropFrame]
  split
  · rfl
  · rfl

theorem cropCorner_bounds (last : ℤ) (dim wdim : ℕ) (h : wdim + 1 ≤ dim) :
    1 ≤ cropCorner last dim wdim ∧ cropCorner last dim wdim ≤ (dim : ℤ) - wdim := by
  simp only [cropCorner]
  split
  · omega
  · split
    · omega
    · omega

/-- C4 (amended: the frame must exceed the window size, i.e. be at least 101
pixels on each axis; the counterexample shows a 50×50 frame drives the corner
to −50): for every such frame and every last marker location, the window
corner computed by `cropFrame` satisfies `1 ≤ corner ≤ frameDim − windowDim`
on each axis, so the 100×100 extraction window never exceeds the frame
bounds. -/
theorem C4_cropFrame_corner (s : TrackerInWindowMode) (frame : Image) (lastX lastY : ℤ)
    (hw : windowWidth + 1 ≤ frame.width) (hh : windowHeight + 1 ≤ frame.height) :
    ∃ xc yc,
      (s.cropFrame frame lastX lastY).subImagePosition
          = some (xc, yc, windowWidth, windowHeight) ∧
      1 ≤ xc ∧ xc ≤ (frame.width : ℤ) - windowWidth ∧
      1 ≤ yc ∧ yc ≤ (frame.height : ℤ) - windowHeight := by
  refine ⟨cropCorner lastX frame.width windowWidth,
    cropCorner lastY frame.height windowHeight,
    cropFrame_subImagePosition s frame lastX lastY, ?_, ?_, ?_, ?_⟩
  · exact (cropCorner_bounds lastX frame.width windowWidth hw).1
  · exact (cropCorner_bounds lastX frame.width windowWidth hw).2
  · exact (cropCorner_bounds lastY frame.height windowHeight hh).1
  · exact (cropCorner_bounds lastY frame.height windowHeight hh).2

/-- Witness for C4 on a 640×480 frame with the last location at the frame
corner `(0, 0)`. -/
theorem C4_cropFrame_corner_witness :
    windowWidth + 1 ≤ (blankImage 640 480 3).width ∧
    windowHeight + 1 ≤ (blankImage 640 480 3).height ∧
    ∃ xc yc,
      ((TrackerInWindowMode.init 7).cropFrame (blankImage 640 480 3) 0 0).subImagePosition
          = some (xc, yc, windowWidth, windowHeight) ∧
      1 ≤ xc ∧ xc ≤ ((blankImage 640 480 3).width : ℤ) - windowWidth ∧
      1 ≤ yc ∧ yc ≤ ((blankImage 640 480 3).height : ℤ) - windowHeight :=
  ⟨by decide, by decide,
    C4_cropFrame_corner (TrackerInWindowMode.init 7) (blankImage 640 480 3) 0 0
      (by decide) (by decide)⟩

/-- C4 counterexample: on a 50×50 frame (smaller than the 100×100 window), the
lower clamp to 1 is overridden by the subsequent upper clamp to
`frameDim − windowDim = −50`, so the computed corner is −50 and the claimed
invariant `1 ≤ corner` fails. -/
theorem C4_counterexample :
    ((TrackerInWindowMode.init 7).cropFrame (blankImage 50 50 3) 25 25).subImagePosition
        = some (-50, -50, windowWidth, windowHeight) ∧
    ¬(1 ≤ (-50 : ℤ)) := by
  constructor
  · rw [cropFrame_subImagePosition]
    rw [show cropCorner 25 (blankImage 50 50 3).width windowWidth = -50 from by decide]
    rw [show cropCorner 25 (blankImage 50 50 3).height windowHeight = -50 from by decide]
  · decide

/-- Modelled from the spec: `cv.Resize` ("downsamples the frame by the
downscale factor on both axes"), as coordinate subsampling to the destination
dimensions. -/
def resize (src : Image) (w h : ℕ) : Image :=
  ⟨w, h, src.channels, fun y x c => src.pix (y * src.height / h) (x * src.width / w) c⟩

/-- State of `ImageAnalyzer`: the per-marker detectors and location caches,
plus the shared downscaled buffers. -/
structure ImageAnalyzer where
  downscaleFactor : ℕ
  markerTrackers : List MarkerTracker
  markerLocationsX : List ℤ
  markerLocationsY : List ℤ
  subClassesInitialized : Bool
  frameGray : Image
  originalImage : Image
  reducedImage : Image

/-- `ImageAnalyzer.__init__(downscaleFactor)`. -/
def ImageAnalyzer.init (downscaleFactor : ℕ) : ImageAnalyzer :=
  { downscaleFactor := downscaleFactor, markerTrackers := [],
    markerLocationsX := [], markerLocationsY := [],
    subClassesInitialized := false,
    frameGray := blankImage 0 0 0, originalImage := blankImage 0 0 0,
    reducedImage := blankImage 0 0 0 }

/-- `ImageAnalyzer.addMarkerToTrack`: append a detector, seed the location
caches with 0, and invalidate the buffer allocation. -/
noncomputable def ImageAnalyzer.addMarkerToTrack (a : ImageAnalyzer)
    (order kernelSize : ℕ) (scaleFactor : ℝ) : ImageAnalyzer :=
  { a with
    markerTrackers := a.markerTrackers ++ [MarkerTracker.init order kernelSize scaleFactor],
    markerLocationsX := a.markerLocationsX ++ [0],
    markerLocationsY := a.markerLocationsY ++ [0],
    subClassesInitialized := false }

/-- `ImageAnalyzer.initializeSubClasses`: allocate the reduced buffers at
`frameDimensions / downscaleFactor` (integer division) and hand the reduced
image to every tracker's allocator. -/
noncomputable def ImageAnalyzer.initializeSubClasses (a : ImageAnalyzer)
    (frame : Image) : ImageAnalyzer :=
  let reducedWidth := frame.width / a.downscaleFactor
  let reducedHeight := frame.height / a.downscaleFactor
  { a with
    subClassesInitialized := true,
    frameGray := blankImage reducedWidth reducedHeight 1,
    originalImage := blankImage reducedWidth reducedHeight 3,
    reducedImage := blankImage reducedWidth reducedHeight frame.channels,
    markerTrackers := a.markerTrackers.map (fun t =>
      t.allocateSpaceGivenFirstFrame (blankImage reducedWidth reducedHeight frame.channels)) }

/-- `ImageAnalyzer.analyzeImage` (the source asserts a 3-channel frame):
lazily initialize, resize into the reduced buffer, convert, grayscale, then
run every tracker over the grayscale image and store each location scaled
back up by the downscale factor. -/
noncomputable def ImageAnalyzer.analyzeImage (a : ImageAnalyzer) (frame : Image) :
    ImageAnalyzer :=
  let a1 := if a.subClassesInitialized then a else a.initializeSubClasses frame
  let reduced := resize frame a1.reducedImage.width a1.reducedImage.height
  let original := convertScale reduced
  let gray := cvtColorRGB2Gray original
  let results := a1.markerTrackers.map (fun t => t.locateMarker gray)
  { a1 with
    reducedImage := reduced,
    originalImage := original,
    frameGray := gray,
    markerTrackers := results.map (fun r => r.2),
    markerLocationsX := results.map (fun r => (a1.downscaleFactor : ℤ) * r.1.1),
    markerLocationsY := results.map (fun r => (a1.downscaleFactor : ℤ) * r.1.2) }

/-- State of `CameraDriver`: the three per-marker lists walked in lockstep
and the constant default orientation. The camera handle, display window,
running flag and save counter play no part in the claims below. -/
structure CameraDriver where
  trackers : List ImageAnalyzer
  windowedTrackers : List TrackerInWindowMode
  oldLocations : List (Option (ℤ × ℤ × ℝ))
  defaultOrientation : ℝ

/-- `CameraDriver.__init__(markerOrders, defaultKernelSize, scalingParameter)`:
one single-marker full-frame analyzer (downscale factor 1) and one windowed
tracker per order; locations start unknown; default orientation 0. -/
noncomputable def CameraDriver.init (markerOrders : List ℕ) (defaultKernelSize : ℕ)
    (scalingParameter : ℝ) : CameraDriver :=
  { trackers := markerOrders.map (fun order =>
      (ImageAnalyzer.init 1).addMarkerToTrack order defaultKernelSize scalingParameter),
    windowedTrackers := markerOrders.map TrackerInWindowMode.init,
    oldLocations := markerOrders.map (fun _ => none),
    defaultOrientation := 0 }

/-- One iteration of the `processFrame` loop for a marker: full-frame search
seeding `[x, y, defaultOrientation]` when the cached location is unknown,
otherwise windowed crop-and-locate around the cached location. -/
noncomputable def processMarker (frame : Image) (d0 : ℝ) :
    ImageAnalyzer × TrackerInWindowMode × Option (ℤ × ℤ × ℝ) →
      ImageAnalyzer × TrackerInWindowMode × Option (ℤ × ℤ × ℝ)
  | (a, w, none) =>
      let a1 := a.analyzeImage frame
      (a1, w, some (a1.markerLocationsX.getD 0 0, a1.markerLocationsY.getD 0 0, d0))
  | (a, w, some loc) =>
      let w1 := w.cropFrame frame loc.1 loc.2.1
      let r := w1.locateMarker
      (a, r.2, some r.1)

/-- The `for k in range(len(self.trackers))` loop of `processFrame`, walking
the three per-marker lists in lockstep (the source indexes all three by the
same `k`; the lists have equal length by construction). -/
noncomputable def processList (frame : Image) (d0 : ℝ) :
    List ImageAnalyzer → List TrackerInWindowMode → List (Option (ℤ × ℤ × ℝ)) →
      List ImageAnalyzer × List TrackerInWindowMode × List (Option (ℤ × ℤ × ℝ))
  | a :: as, w :: ws, l :: ls =>
      let r := processMarker frame d0 (a, w, l)
      let rest := processList frame d0 as ws ls
      (r.1 :: rest.1, r.2.1 :: rest.2.1, r.2.2 :: rest.2.2)
  | as, ws, ls => (as, ws, ls)

/-- `CameraDriver.processFrame`, with the current frame passed explicitly
(the source reads `self.currentFrame`, captured beforehand by `getImage`). -/
noncomputable def CameraDriver.processFrame (d : CameraDriver) (frame : Image) :
    CameraDriver :=
  let r := processList frame d.defaultOrientation d.trackers d.windowedTrackers d.oldLocations
  { d with trackers := r.1, windowedTrackers := r.2.1, oldLocations := r.2.2 }

/-- `CameraDriver.resetAllLocations`: clear every cached marker location,
forcing a full search on the next iteration. -/
def CameraDriver.resetAllLocations (d : CameraDriver) : CameraDriver :=
  { d with oldLocations := d.oldLocations.map (fun _ => none) }

/-- A default window-tracker value for list indexing. -/
def wDefault : TrackerInWindowMode :=
  { frameGray := blankImage 0 0 0, originalImage := blankImage 0 0 0,
    reducedImage := blankImage 0 0 0, markerTracker := dummyTracker,
    trackerIsInitialized := false, subImagePosition := none }

theorem processList_getD (frame : Image) (d0 : ℝ) (as : List ImageAnalyzer)
    (ws : List TrackerInWindowMode) (ls : List (Option (ℤ × ℤ × ℝ))) (k : ℕ)
    (ha : k < as.length) (hw : k < ws.length) (hl : k < ls.length) :
    (processList frame d0 as ws ls).2.2.getD k none
        = (processMarker frame d0
            (as.getD k (ImageAnalyzer.init 1), ws.getD k wDefault, ls.getD k none)).2.2 ∧
    (processList frame d0 as ws ls).2.1.getD k wDefault
        = (processMarker frame d0
            (as.getD k (ImageAnalyzer.init 1), ws.getD k wDefault, ls.getD k none)).2.1 := by
  induction k generalizing as ws ls with
  | zero =>
    cases as with
    | nil => simp at ha
    | cons a as =>
      cases ws with
      | nil => simp at hw
      | cons w ws =>
        cases ls with
        | nil => simp at hl
        | cons l ls => exact ⟨rfl, rfl⟩
  | succ k ih =>
    cases as with
    | nil => simp at ha
    | cons a as =>
      cases ws with
      | nil => simp at hw
      | cons w ws =>
        cases ls with
        | nil => simp at hl
        | cons l ls =>
          have h1 : (processList frame d0 (a :: as) (w :: ws) (l :: ls)).2.2
              = (processMarker frame d0 (a, w, l)).2.2
                :: (processList frame d0 as ws ls).2.2 := rfl
          have h2 : (processList frame d0 (a :: as) (w :: ws) (l :: ls)).2.1
              = (processMarker frame d0 (a, w, l)).2.1
                :: (processList frame d0 as ws ls).2.1 := rfl
          rw [h1, h2]
          simp only [List.getD_cons_succ]
          exact ih as ws ls (Nat.lt_of_succ_lt_succ (by simpa using ha))
            (Nat.lt_of_succ_lt_succ (by simpa using hw))
            (Nat.lt_of_succ_lt_succ (by simpa using hl))

theorem processMarker_isSome (frame : Image) (d0 : ℝ)
    (t : ImageAnalyzer × TrackerInWindowMode × Option (ℤ × ℤ × ℝ)) :
    (processMarker frame d0 t).2.2 ≠ none := by
  obtain ⟨a, w, l⟩ := t
  cases l with
  | none => simp [processMarker]
  | some loc => simp [processMarker]

theorem getD_map_none {α : Type} (l : List α) (j : ℕ) :
    (l.map (fun _ => (none : Option (ℤ × ℤ × ℝ)))).getD j none = none := by
  induction l generalizing j with
  | nil => rfl
  | cons a t ih =>
    cases j with
    | zero => rfl
    | succ j => exact ih j

/-- C9: a marker with unknown cached location is seeded by one `processFrame`
call with some position and orientation equal to the driver's default
orientation 0 (moving it to TRACKING); a marker with a known cached location
is updated through the windowed search around that location; `processFrame`
never returns an entry to unknown; and `resetAllLocations` clears every
marker's cached location back to unknown (SEARCHING). -/
theorem C9_state_machine (d : CameraDriver) (frame : Image) (k : ℕ)
    (hk : k < d.oldLocations.length)
    (ha : d.trackers.length = d.oldLocations.length)
    (hw : d.windowedTrackers.length = d.oldLocations.length)
    (hdo : d.defaultOrientation = 0) :
    (d.oldLocations.getD k none = none →
      ∃ x y, (d.processFrame frame).oldLocations.getD k none = some (x, y, 0)) ∧
    (∀ loc, d.oldLocations.getD k none = some loc →
      (d.processFrame frame).oldLocations.getD k none
        = some (((d.windowedTrackers.getD k wDefault).cropFrame frame
            loc.1 loc.2.1).locateMarker).1) ∧
    (d.processFrame frame).oldLocations.getD k none ≠ none ∧
    ∀ j, d.resetAllLocations.oldLocations.getD j none = none := by
  have hget := processList_getD frame d.defaultOrientation d.trackers d.windowedTrackers
    d.oldLocations k (by omega) (by omega) hk
  have hpf : (d.processFrame frame).oldLocations.getD k none
      = (processMarker frame d.defaultOrientation
          (d.trackers.getD k (ImageAnalyzer.init 1),
           d.windowedTrackers.getD k wDefault, d.oldLocations.getD k none)).2.2 :=
    hget.1
  rw [hdo] at hpf
  refine ⟨?_, ?_, ?_, ?_⟩
  · intro hnone
    rw [hpf, hnone]
    exact ⟨((d.trackers.getD k (ImageAnalyzer.init 1)).analyzeImage frame).markerLocationsX.getD 0 0,
      ((d.trackers.getD k (ImageAnalyzer.init 1)).analyzeImage frame).markerLocationsY.getD 0 0,
      rfl⟩
  · intro loc hloc
    rw [hpf, hloc]
    rfl
  · rw [hpf]
    exact processMarker_isSome frame 0 _
  · intro j
    exact getD_map_none d.oldLocations j

/-- Witness for C9 at the default driver construction (orders `[7, 8]`). -/
theorem C9_state_machine_witness :
    0 < (CameraDriver.init [7, 8] 21 2500).oldLocations.length ∧
    (CameraDriver.init [7, 8] 21 2500).trackers.length
      = (CameraDriver.init [7, 8] 21 2500).oldLocations.length ∧
    (CameraDriver.init [7, 8] 21 2500).windowedTrackers.length
      = (CameraDriver.init [7, 8] 21 2500).oldLocations.length ∧
    (CameraDriver.init [7, 8] 21 2500).defaultOrientation = 0 ∧
    (((CameraDriver.init [7, 8] 21 2500).oldLocations.getD 0 none = none →
      ∃ x y, ((CameraDriver.init [7, 8] 21 2500).processFrame (blankImage 4 4 3)).oldLocations.getD 0 none
        = some (x, y, 0)) ∧
    (∀ loc, (CameraDriver.init [7, 8] 21 2500).oldLocations.getD 0 none = some loc →
      ((CameraDriver.init [7, 8] 21 2500).processFrame (blankImage 4 4 3)).oldLocations.getD 0 none
        = some ((((CameraDriver.init [7, 8] 21 2500).windowedTrackers.getD 0 wDefault).cropFrame
            (blankImage 4 4 3) loc.1 loc.2.1).locateMarker).1) ∧
    ((CameraDriver.init [7, 8] 21 2500).processFrame (blankImage 4 4 3)).oldLocations.getD 0 none ≠ none ∧
    ∀ j, (CameraDriver.init [7, 8] 21 2500).resetAllLocations.oldLocations.getD j none = none) :=
  ⟨by simp [CameraDriver.init], by simp [CameraDriver.init], by simp [CameraDriver.init], rfl,
    C9_state_machine (CameraDriver.init [7, 8] 21 2500) (blankImage 4 4 3) 0
      (by simp [CameraDriver.init]) (by simp [CameraDriver.init])
      (by simp [CameraDriver.init]) rfl⟩

theorem cropFrame_fail_frameGray (s : TrackerInWindowMode) (frame : Image) (lx ly : ℤ)
    (hfail : ¬ cropOk frame (cropCorner lx frame.width windowWidth)
      (cropCorner ly frame.height windowHeight) windowWidth windowHeight) :
    (s.cropFrame frame lx ly).frameGray = s.frameGray := by
  simp only [TrackerInWindowMode.cropFrame]
  rw [if_neg hfail]
  split
  · rfl
  · rfl

/-- The net orientation update performed by `locateMarker` through
`determineMarkerOrientation`, written out over the returned peak. -/
theorem locateMarker_orientation (t : MarkerTracker) (frame : Image) :
    (t.locateMarker frame).2.orientation
      = some (limitAngleToRange (probeFold frame (t.locateMarker frame).1.1
          (t.locateMarker frame).1.2
          ((atan2 (-(((t.locateMarker frame).2.frameReal.get2D
                ((t.locateMarker frame).1.2 : ℤ) ((t.locateMarker frame).1.1 : ℤ)).getD 0))
            (((t.locateMarker frame).2.frameImag.get2D
                ((t.locateMarker frame).1.2 : ℤ) ((t.locateMarker frame).1.1 : ℤ)).getD 0)
            - Real.pi / 2) / t.order) t.order).2) := rfl

theorem probeFold_zeroFrame (frame : Image) (hz : ∀ y x, frame.pix y x 0 = 0)
    (xm ym : ℕ) (base : ℝ) (order : ℕ) :
    probeFold frame xm ym base order = (0, 0) := by
  rw [probeFold]
  generalize List.range order = l
  induction l with
  | nil => rfl
  | cons k t ih =>
    rw [List.foldl_cons]
    have hstep : probeStep frame xm ym base order (0, 0) k = (0, 0) := by
      simp only [probeStep]
      split
      · rfl
      · rename_i v hread
        have hv0 : v = 0 := by
          rw [Image.get2D] at hread
          split at hread
          · injection hread with hv
            rw [← hv]
            exact hz _ _
          · exact Option.noConfusion hread
        subst hv0
        rw [if_neg (lt_irrefl (0 : ℝ))]
    rw [hstep]
    exact ih

theorem locateMarker_zeroFrame (t : MarkerTracker) (w h : ℕ) (_hw : 0 < w) (_hh : 0 < h) :
    (t.locateMarker (blankImage w h 1)).1 = (0, 0) ∧
    (t.locateMarker (blankImage w h 1)).2.orientation = some 0 := by
  have hsz : ∀ y x, (((filter2D (blankImage w h 1) t.matReal t.kernelSize).mul
      (filter2D (blankImage w h 1) t.matReal t.kernelSize)).add
      ((filter2D (blankImage w h 1) t.matImag t.kernelSize).mul
      (filter2D (blankImage w h 1) t.matImag t.kernelSize))).pix y x 0 = 0 := by
    intro y x
    simp [Image.add, Image.mul, filter2D, blankImage]
  have h1 : (t.locateMarker (blankImage w h 1)).1 = (0, 0) := by
    rw [locateMarker_fst]
    exact minMaxLoc_zero _ hsz
  refine ⟨h1, ?_⟩
  rw [locateMarker_orientation, h1]
  rw [probeFold_zeroFrame (blankImage w h 1) (fun _ _ => rfl)]
  rw [show ((0 : ℝ), (0 : ℝ)).2 = (0 : ℝ) from rfl, limitAngleToRange_zero]

/-- C3 (amended): a failing crop/convert step is caught inside `cropFrame`,
which is total (does not raise) and leaves the window image `frameGray`
unchanged — though it still records the newly clamped window rectangle — and
the enclosing `processFrame` cycle still reassigns the marker's cached entry
from the windowed `locateMarker` on the unchanged, stale window content, so
the cached position can change (see the counterexample). -/
theorem C3_cropFailure (d : CameraDriver) (frame : Image) (k : ℕ) (loc : ℤ × ℤ × ℝ)
    (hk : k < d.oldLocations.length)
    (ha : d.trackers.length = d.oldLocations.length)
    (hw : d.windowedTrackers.length = d.oldLocations.length)
    (hloc : d.oldLocations.getD k none = some loc)
    (hfail : ¬ cropOk frame (cropCorner loc.1 frame.width windowWidth)
        (cropCorner loc.2.1 frame.height windowHeight) windowWidth windowHeight) :
    ((d.windowedTrackers.getD k wDefault).cropFrame frame loc.1 loc.2.1).frameGray
        = (d.windowedTrackers.getD k wDefault).frameGray ∧
    ((d.windowedTrackers.getD k wDefault).cropFrame frame loc.1 loc.2.1).subImagePosition
        = some (cropCorner loc.1 frame.width windowWidth,
            cropCorner loc.2.1 frame.height windowHeight, windowWidth, windowHeight) ∧
    (d.processFrame frame).oldLocations.getD k none
        = some (((d.windowedTrackers.getD k wDefault).cropFrame frame
            loc.1 loc.2.1).locateMarker).1 := by
  refine ⟨cropFrame_fail_frameGray _ frame loc.1 loc.2.1 hfail,
    cropFrame_subImagePosition _ frame loc.1 loc.2.1, ?_⟩
  have hget := processList_getD frame d.defaultOrientation d.trackers d.windowedTrackers
    d.oldLocations k (by omega) (by omega) hk
  have hpf : (d.processFrame frame).oldLocations.getD k none
      = (processMarker frame d.defaultOrientation
          (d.trackers.getD k (ImageAnalyzer.init 1),
           d.windowedTrackers.getD k wDefault, d.oldLocations.getD k none)).2.2 :=
    hget.1
  rw [hpf, hloc]
  rfl

/-- A concrete windowed-tracker state whose window content is all dark. -/
noncomputable def c3Window : TrackerInWindowMode :=
  { frameGray := blankImage 100 100 1,
    originalImage := blankImage 100 100 3,
    reducedImage := blankImage 100 100 3,
    markerTracker := MarkerTracker.init 7 21 2500,
    trackerIsInitialized := false,
    subImagePosition := some (0, 0, windowWidth, windowHeight) }

/-- A concrete one-marker driver state in tracking mode at `(25, 25, 1)`. -/
noncomputable def c3Driver : CameraDriver :=
  { trackers := [(ImageAnalyzer.init 1).addMarkerToTrack 7 21 2500],
    windowedTrackers := [c3Window],
    oldLocations := [some (25, 25, 1)],
    defaultOrientation := 0 }

/-- Witness for C3 at the concrete driver state on a transiently small
(50×50) camera frame, for which the window extraction fails. -/
theorem C3_cropFailure_witness :
    0 < c3Driver.oldLocations.length ∧
    c3Driver.trackers.length = c3Driver.oldLocations.length ∧
    c3Driver.windowedTrackers.length = c3Driver.oldLocations.length ∧
    c3Driver.oldLocations.getD 0 none = some (25, 25, 1) ∧
    ¬ cropOk (blankImage 50 50 3)
        (cropCorner (25 : ℤ) (blankImage 50 50 3).width windowWidth)
        (cropCorner (25 : ℤ) (blankImage 50 50 3).height windowHeight)
        windowWidth windowHeight ∧
    (((c3Driver.windowedTrackers.getD 0 wDefault).cropFrame (blankImage 50 50 3)
          (25 : ℤ) (25 : ℤ)).frameGray
        = (c3Driver.windowedTrackers.getD 0 wDefault).frameGray ∧
    ((c3Driver.windowedTrackers.getD 0 wDefault).cropFrame (blankImage 50 50 3)
          (25 : ℤ) (25 : ℤ)).subImagePosition
        = some (cropCorner (25 : ℤ) (blankImage 50 50 3).width windowWidth,
            cropCorner (25 : ℤ) (blankImage 50 50 3).height windowHeight,
            windowWidth, windowHeight) ∧
    (c3Driver.processFrame (blankImage 50 50 3)).oldLocations.getD 0 none
        = some (((c3Driver.windowedTrackers.getD 0 wDefault).cropFrame (blankImage 50 50 3)
            (25 : ℤ) (25 : ℤ)).locateMarker).1) :=
  ⟨by norm_num [c3Driver], by norm_num [c3Driver], by norm_num [c3Driver], rfl, by decide,
    C3_cropFailure c3Driver (blankImage 50 50 3) 0 (25, 25, 1)
      (by norm_num [c3Driver]) (by norm_num [c3Driver]) (by norm_num [c3Driver])
      rfl (by decide)⟩

/-- C3 counterexample: at the concrete state `c3Driver` (marker cached at
`(25, 25, 1)`, dark window content) a 50×50 frame makes the crop fail, yet at
the end of the `processFrame` cycle the marker's cached entry has changed to
`(-50, -50, 0)`: the stale window's dark peak `(0, 0)` translated by the
newly clamped corner `(-50, -50)`. -/
theorem C3_counterexample :
    ¬ cropOk (blankImage 50 50 3)
        (cropCorner (25 : ℤ) (blankImage 50 50 3).width windowWidth)
        (cropCorner (25 : ℤ) (blankImage 50 50 3).height windowHeight)
        windowWidth windowHeight ∧
    (c3Driver.processFrame (blankImage 50 50 3)).oldLocations.getD 0 none
        = some (-50, -50, 0) ∧
    (c3Driver.processFrame (blankImage 50 50 3)).oldLocations.getD 0 none
        ≠ c3Driver.oldLocations.getD 0 none := by
  have hfail : ¬ cropOk (blankImage 50 50 3)
      (cropCorner (25 : ℤ) (blankImage 50 50 3).width windowWidth)
      (cropCorner (25 : ℤ) (blankImage 50 50 3).height windowHeight)
      windowWidth windowHeight := by decide
  have hw1g := cropFrame_fail_frameGray c3Window (blankImage 50 50 3) 25 25 hfail
  have hsub : (c3Window.cropFrame (blankImage 50 50 3) 25 25).subImagePosition
      = some (-50, -50, windowWidth, windowHeight) := by
    rw [cropFrame_subImagePosition]
    rw [show cropCorner (25 : ℤ) (blankImage 50 50 3).width windowWidth = -50 from by decide]
    rw [show cropCorner (25 : ℤ) (blankImage 50 50 3).height windowHeight = -50 from by decide]
  have hz := locateMarker_zeroFrame
    (c3Window.cropFrame (blankImage 50 50 3) 25 25).markerTracker 100 100
    (by norm_num) (by norm_num)
  have hr1 : ((c3Window.cropFrame (blankImage 50 50 3) 25 25).markerTracker.locateMarker
      (c3Window.cropFrame (blankImage 50 50 3) 25 25).frameGray).1 = (0, 0) := by
    rw [hw1g]
    exact hz.1
  have hr2 : ((c3Window.cropFrame (blankImage 50 50 3) 25 25).markerTracker.locateMarker
      (c3Window.cropFrame (blankImage 50 50 3) 25 25).frameGray).2.orientation = some 0 := by
    rw [hw1g]
    exact hz.2
  have hwl : ((c3Window.cropFrame (blankImage 50 50 3) 25 25).locateMarker).1
      = (-50, -50, 0) := by
    simp only [TrackerInWindowMode.locateMarker]
    rw [hr1, hr2, hsub]
    norm_num
  have hpf : (c3Driver.processFrame (blankImage 50 50 3)).oldLocations.getD 0 none
      = some ((c3Window.cropFrame (blankImage 50 50 3) 25 25).locateMarker).1 := by
    have hget := processList_getD (blankImage 50 50 3) c3Driver.defaultOrientation
      c3Driver.trackers c3Driver.windowedTrackers c3Driver.oldLocations 0
      (by norm_num [c3Driver]) (by norm_num [c3Driver]) (by norm_num [c3Driver])
    have hpf0 : (c3Driver.processFrame (blankImage 50 50 3)).oldLocations.getD 0 none
        = (processMarker (blankImage 50 50 3) c3Driver.defaultOrientation
            (c3Driver.trackers.getD 0 (ImageAnalyzer.init 1),
             c3Driver.windowedTrackers.getD 0 wDefault,
             c3Driver.oldLocations.getD 0 none)).2.2 :=
      hget.1
    rw [hpf0]
    rfl
  refine ⟨hfail, ?_, ?_⟩
  · rw [hpf, hwl]
  · rw [hpf, hwl, show c3Driver.oldLocations.getD 0 none = some (25, 25, 1) from rfl]
    intro hcontra
    injection hcontra with h1
    have h2 := congrArg Prod.fst h1
    norm_num at h2

/-- The pose part of the published odometry message
(`self.odom.pose.pose`): position and orientation quaternion. -/
structure PoseMsg where
  posX : ℝ
  posY : ℝ
  posZ : ℝ
  qx : ℝ
  qy : ℝ
  qz : ℝ
  qw : ℝ

/-- One transform broadcast: translation, rotation quaternion in
`(x, y, z, w)` order, and the two frame names. -/
structure TransformMsg where
  translation : ℝ × ℝ × ℝ
  rotation : ℝ × ℝ × ℝ × ℝ
  parentFrame : String
  childFrame : String

/-- Modelled from the spec: the external
`tf.transformations.quaternion_from_euler`, the standard roll/pitch/yaw to
quaternion conversion, returned in `(x, y, z, w)` component order. -/
noncomputable def quaternion_from_euler (roll pitch yaw : ℝ) : ℝ × ℝ × ℝ × ℝ :=
  (Real.sin (roll / 2) * Real.cos (pitch / 2) * Real.cos (yaw / 2)
     - Real.cos (roll / 2) * Real.sin (pitch / 2) * Real.sin (yaw / 2),
   Real.cos (roll / 2) * Real.sin (pitch / 2) * Real.cos (yaw / 2)
     + Real.sin (roll / 2) * Real.cos (pitch / 2) * Real.sin (yaw / 2),
   Real.cos (roll / 2) * Real.cos (pitch / 2) * Real.sin (yaw / 2)
     - Real.sin (roll / 2) * Real.sin (pitch / 2) * Real.cos (yaw / 2),
   Real.cos (roll / 2) * Real.cos (pitch / 2) * Real.cos (yaw / 2)
     + Real.sin (roll / 2) * Real.sin (pitch / 2) * Real.sin (yaw / 2))

/-- `RosPublisher.publishMarkerLocations`: for each marker id in order, build
the pose message with pixel positions divided by 100.0, `z` fixed at 0, and
the orientation quaternion assigned as `qx = cos(o/2)`, `qy = 0`, `qz = 0`,
`qw = sin(o/2)`; and broadcast a transform from the parent frame `"/odom"` to
the child frame `"/base_link"` (the spec's reading of the broadcaster's two
frame arguments) at the same translation with the standard yaw quaternion.
Returns the published pose/transform pairs in publication order. -/
noncomputable def publishMarkerLocations (markers : List ℕ)
    (locations : List (ℝ × ℝ × ℝ)) : List (PoseMsg × TransformMsg) :=
  (markers.zip locations).map fun p =>
    ({ posX := p.2.1 / 100, posY := p.2.2.1 / 100, posZ := 0,
       qx := Real.cos (p.2.2.2 / 2), qy := 0, qz := 0, qw := Real.sin (p.2.2.2 / 2) },
     { translation := (p.2.1 / 100, p.2.2.1 / 100, 0),
       rotation := quaternion_from_euler 0 0 p.2.2.2,
       parentFrame := "/odom", childFrame := "/base_link" })

/-- A default published pair for list indexing. -/
def dummyPub : PoseMsg × TransformMsg :=
  ({ posX := 0, posY := 0, posZ := 0, qx := 0, qy := 0, qz := 0, qw := 0 },
   { translation := (0, 0, 0), rotation := (0, 0, 0, 0),
     parentFrame := "", childFrame := "" })

/-- C1: for every published marker location `(x, y, o)`, the pose message has
position `(x/100, y/100, 0)` and orientation quaternion `qx = cos(o/2)`,
`qy = 0`, `qz = 0`, `qw = sin(o/2)` — the yaw rotation is carried on the
x/w quaternion components. -/
theorem C1_publish_pose (markers : List ℕ) (locations : List (ℝ × ℝ × ℝ)) (j : ℕ)
    (hj : j < (publishMarkerLocations markers locations).length) :
    ((publishMarkerLocations markers locations).getD j dummyPub).1
      = { posX := (locations.getD j (0, 0, 0)).1 / 100,
          posY := (locations.getD j (0, 0, 0)).2.1 / 100,
          posZ := 0,
          qx := Real.cos ((locations.getD j (0, 0, 0)).2.2 / 2),
          qy := 0, qz := 0,
          qw := Real.sin ((locations.getD j (0, 0, 0)).2.2 / 2) } := by
  have hlen : (publishMarkerLocations markers locations).length
      = min markers.length locations.length := by
    simp [publishMarkerLocations]
  have hjl : j < locations.length := by
    rw [hlen] at hj
    omega
  rw [List.getD_eq_getElem _ _ hj, List.getD_eq_getElem _ _ hjl]
  simp only [publishMarkerLocations, List.getElem_map, List.getElem_zip]

/-- Witness for C1 at the spec's example input `(250, 500, π/2)`. -/
theorem C1_publish_pose_witness :
    0 < (publishMarkerLocations [7] [(250, 500, Real.pi / 2)]).length ∧
    ((publishMarkerLocations [7] [(250, 500, Real.pi / 2)]).getD 0 dummyPub).1
      = { posX := (([((250 : ℝ), (500 : ℝ), Real.pi / 2)]).getD 0 (0, 0, 0)).1 / 100,
          posY := (([((250 : ℝ), (500 : ℝ), Real.pi / 2)]).getD 0 (0, 0, 0)).2.1 / 100,
          posZ := 0,
          qx := Real.cos ((([((250 : ℝ), (500 : ℝ), Real.pi / 2)]).getD 0 (0, 0, 0)).2.2 / 2),
          qy := 0, qz := 0,
          qw := Real.sin ((([((250 : ℝ), (500 : ℝ), Real.pi / 2)]).getD 0 (0, 0, 0)).2.2 / 2) } :=
  ⟨by simp [publishMarkerLocations], C1_publish_pose [7] [(250, 500, Real.pi / 2)] 0
    (by simp [publishMarkerLocations])⟩

/-- C2: for every published marker location, the transform broadcast uses
parent frame `"/odom"`, child frame `"/base_link"`, translation
`(x/100, y/100, 0)`, and the quaternion of the standard roll=0, pitch=0,
yaw=o Euler conversion, which equals `(0, 0, sin(o/2), cos(o/2))`. -/
theorem C2_publish_transform (markers : List ℕ) (locations : List (ℝ × ℝ × ℝ)) (j : ℕ)
    (hj : j < (publishMarkerLocations markers locations).length) :
    ((publishMarkerLocations markers locations).getD j dummyPub).2
      = { translation := ((locations.getD j (0, 0, 0)).1 / 100,
            (locations.getD j (0, 0, 0)).2.1 / 100, 0),
          rotation := quaternion_from_euler 0 0 (locations.getD j (0, 0, 0)).2.2,
          parentFrame := "/odom", childFrame := "/base_link" } ∧
    quaternion_from_euler 0 0 (locations.getD j (0, 0, 0)).2.2
      = (0, 0, Real.sin ((locations.getD j (0, 0, 0)).2.2 / 2),
          Real.cos ((locations.getD j (0, 0, 0)).2.2 / 2)) := by
  constructor
  · have hlen : (publishMarkerLocations markers locations).length
        = min markers.length locations.length := by
      simp [publishMarkerLocations]
    have hjl : j < locations.length := by
      rw [hlen] at hj
      omega
    rw [List.getD_eq_getElem _ _ hj, List.getD_eq_getElem _ _ hjl]
    simp only [publishMarkerLocations, List.getElem_map, List.getElem_zip]
  · rw [quaternion_from_euler]
    norm_num

/-- Witness for C2 at the spec's example input `(250, 500, π/2)`. -/
theorem C2_publish_transform_witness :
    0 < (publishMarkerLocations [7] [(250, 500, Real.pi / 2)]).length ∧
    (((publishMarkerLocations [7] [(250, 500, Real.pi / 2)]).getD 0 dummyPub).2
      = { translation := ((([((250 : ℝ), (500 : ℝ), Real.pi / 2)]).getD 0 (0, 0, 0)).1 / 100,
            (([((250 : ℝ), (500 : ℝ), Real.pi / 2)]).getD 0 (0, 0, 0)).2.1 / 100, 0),
          rotation := quaternion_from_euler 0 0
            (([((250 : ℝ), (500 : ℝ), Real.pi / 2)]).getD 0 (0, 0, 0)).2.2,
          parentFrame := "/odom", childFrame := "/base_link" } ∧
    quaternion_from_euler 0 0 (([((250 : ℝ), (500 : ℝ), Real.pi / 2)]).getD 0 (0, 0, 0)).2.2
      = (0, 0, Real.sin ((([((250 : ℝ), (500 : ℝ), Real.pi / 2)]).getD 0 (0, 0, 0)).2.2 / 2),
          Real.cos ((([((250 : ℝ), (500 : ℝ), Real.pi / 2)]).getD 0 (0, 0, 0)).2.2 / 2))) :=
  ⟨by simp [publishMarkerLocations], C2_publish_transform [7] [(250, 500, Real.pi / 2)] 0
    (by simp [publishMarkerLocations])⟩
